import Mathlib

/-!
# Signing a PDF in place: `pkg/pdfcpu/sign.go`

A shallow embedding of `Context.Sign`, `patchFile`, `Context.PrepareSignature` and
`Context.PrepareTimestamp`, followed by the properties of the two-phase signing protocol.

Conventions of the embedding

* Go `int64`, and `int` on a 64 bit platform, are 64 bit two's complement integers.  They
  are `Int` values here and every arithmetic operation of the source is wrapped by `wrap64`.
* A byte is a `Nat` below 256; a file is the list of its bytes; a Go `string` is a `String`.
* The file system is a map from file names to file contents.  Opening a file without
  `O_CREATE` fails when the name is unbound.  Other failures of the operating system
  (permissions, full disks) are outside the model.
* A Go `error` result is an `Option Err`, `none` being `nil`.  Functions that mutate their
  receiver or the file system return the new state next to the error, because the source
  performs no rollback.
-/

namespace Pdfcpu

/-! ## Machine integers -/

/-- Largest `int64`. -/
def maxInt64 : Int := 2 ^ 63 - 1

/-- Smallest `int64`. -/
def minInt64 : Int := -(2 ^ 63)

/-- Two's complement interpretation of an integer in 64 bits: the value a Go `int` or `int64`
expression takes when its mathematical value is `x`. -/
def wrap64 (x : Int) : Int := (x + 2 ^ 63) % 2 ^ 64 - 2 ^ 63

/-- The integer is representable as an `int64`. -/
def IsInt64 (x : Int) : Prop := minInt64 ≤ x ∧ x ≤ maxInt64

instance (x : Int) : Decidable (IsInt64 x) := by
  unfold IsInt64; exact inferInstance

/-! ## Errors -/

/-- The error values that occur.  `hasAcroForm` is `ErrHasAcroForm`; `runtimePanic` stands for
a Go run-time panic (failed type assertion, index out of range, write to a nil map,
`make` with a negative length). -/
inductive Err where
  | hasAcroForm
  | notExist
  | seekInvalid
  | negativeOffset
  | missingCatalog
  | allocation
  | signer (code : Nat)
  | writer (code : Nat)
  | runtimePanic
  deriving DecidableEq, Repr

/-- The error `ErrHasAcroForm = errors.New("pdfcpu: existing")`. -/
def ErrHasAcroForm : Err := Err.hasAcroForm

/-! ## Files -/

/-- File contents. -/
abbrev Bytes := List Nat

/-- The file system: the contents bound to each file name. -/
abbrev FS := String → Option Bytes

/-- Rebinds one file name. -/
def FS.store (fs : FS) (fileName : String) (content : Bytes) : FS :=
  fun n => if n = fileName then some content else fs n

/-- The call `(*os.File).WriteAt(bb, off)` for `off ≥ 0` on a file opened without
`O_APPEND`: the loop `for len(b) > 0` issues no `pwrite` for an empty buffer; otherwise
`pwrite` overwrites in place, extends the file when the write passes its end, and fills a
gap between the old end and `off` with zero bytes. -/
def writeAt (content : Bytes) (bb : Bytes) (off : Nat) : Bytes :=
  match bb with
  | [] => content
  | _ :: _ =>
    (content ++ List.replicate (off - content.length) 0).take off ++ bb
      ++ content.drop (off + bb.length)

/-- The function `patchFile(fileName, bb, offset)`: `os.OpenFile(fileName, os.O_RDWR, 0644)`
fails for a missing file, `f.Seek(offset, io.SeekStart)` fails for a negative offset, and
`f.WriteAt(bb, offset)` writes.  The file system is returned as the call leaves it. -/
def patchFile (fs : FS) (fileName : String) (bb : Bytes) (offset : Int) : FS × Option Err :=
  match fs fileName with
  | none => (fs, some Err.notExist)
  | some content =>
    if offset < 0 then (fs, some Err.seekInvalid)
    else (fs.store fileName (writeAt content bb offset.toNat), none)

/-! ## Readers -/

/-- What a reader delivers when it is read to its end: the bytes, and the error that ended
the stream if it was not `io.EOF` (`runtimePanic` when the read itself panics). -/
structure Stream where
  data : Bytes
  err : Option Err
  deriving DecidableEq, Repr

/-- The window `[off, limit)` of an `io.SectionReader`. -/
structure SectionReader where
  off : Int
  limit : Int
  deriving DecidableEq, Repr

/-- The constructor `io.NewSectionReader(f, off, n)`: the limit is `off + n`, or `maxint64`
when the test `off <= maxint64 - n` fails (the subtraction itself is an `int64`
subtraction). -/
def NewSectionReader (off n : Int) : SectionReader :=
  if off ≤ wrap64 (maxInt64 - n) then ⟨off, wrap64 (n + off)⟩ else ⟨off, maxInt64⟩

/-- Reading a section of the file to the end: `Read` reports `io.EOF` at once when
`off >= limit`; otherwise it computes `max := s.limit - s.off` in `int64` arithmetic and
cuts its buffer to `p[0:max]`, which panics when the subtraction has overflowed to a
negative value; then it calls `f.ReadAt`, which rejects a negative offset and else
delivers the bytes of the file in the window.  The panic unwinds through the signer that
reads; the stream records it as the error `runtimePanic`. -/
def SectionReader.readAll (s : SectionReader) (f : Bytes) : Stream :=
  if s.off ≥ s.limit then ⟨[], none⟩
  else if wrap64 (s.limit - s.off) < 0 then ⟨[], some Err.runtimePanic⟩
  else if s.off < 0 then ⟨[], some Err.negativeOffset⟩
  else ⟨(f.drop s.off.toNat).take (s.limit - s.off).toNat, none⟩

/-- The reader `io.MultiReader(part0, part1)` read to its end: the second reader is read
once the first has reported `io.EOF`; an error of the first ends the stream. -/
def MultiReader (part0 part1 : Stream) : Stream :=
  match part0.err with
  | some e => ⟨part0.data, some e⟩
  | none => ⟨part0.data ++ part1.data, part1.err⟩

/-! ## Hex encoding -/

/-- The table `hextable = "0123456789abcdef"` of `encoding/hex`. -/
def hextable : List Char :=
  ['0', '1', '2', '3', '4', '5', '6', '7', '8', '9', 'a', 'b', 'c', 'd', 'e', 'f']

/-- The function `hex.EncodeToString(src)`: `hextable[v>>4]` and `hextable[v&0x0f]` for
every byte `v`, `v>>4` being `v / 16` and `v&0x0f` being `v % 16`; a byte is below 256, so
both indices are below 16. -/
def EncodeToString (src : Bytes) : String :=
  String.mk (src.flatMap fun v => [hextable.getD (v / 16) '0', hextable.getD (v % 16) '0'])

/-- The conversion `[]byte(s)` for a string of ASCII characters. -/
def toBytes (s : String) : Bytes := s.toList.map Char.toNat

/-! ## The object model -/

/-- Modelled from the spec: the object model of the document (`Object`, `Name`,
`StringLiteral`, `HexLiteral`, `Integer`, `Float`, `IndirectRef`, `Array`, `Dict`), declared
in other files of the package.  A dictionary is the list of its entries; `float` carries the
integral value of the `Float` (the only floats built here are `0`). -/
inductive Object where
  | name (s : String)
  | stringLiteral (s : String)
  | hexLiteral (s : String)
  | integer (i : Int)
  | float (x : Int)
  | indirectRef (ObjectNumber : Nat) (GenerationNumber : Nat)
  | array (a : List Object)
  | dict (d : List (String × Object))

/-- A `Dict`: named entries. -/
abbrev Dict := List (String × Object)

/-- An `Array`. -/
abbrev Array := List Object

/-- Modelled from the spec: `Dict.Find`, reading a named entry. -/
def Dict.Find : Dict → String → Option Object
  | [], _ => none
  | (k, v) :: es, key => if k = key then some v else Dict.Find es key

/-- The map assignment `d[key] = value`. -/
def Dict.set : Dict → String → Object → Dict
  | [], key, value => [(key, value)]
  | (k, v) :: es, key, value =>
    if k = key then (k, value) :: es else (k, v) :: Dict.set es key value

/-- Modelled from the spec: `Dict.Update`, "update a named entry" (the value is never nil
here, so the entry is always assigned). -/
def Dict.Update (d : Dict) (key : String) (value : Object) : Dict := Dict.set d key value

/-- Modelled from the spec: `Dict.Insert`, "insert a named entry": assigns only when the key
is absent. -/
def Dict.Insert (d : Dict) (key : String) (value : Object) : Dict :=
  match Dict.Find d key with
  | some _ => d
  | none => Dict.set d key value

/-- Modelled from the spec: `Dict.ArrayEntry`, the array stored directly under a key, nil
(empty) otherwise. -/
def Dict.ArrayEntry (d : Dict) (key : String) : Array :=
  match Dict.Find d key with
  | some (Object.array a) => a
  | _ => []

/-- The constructor `NewHexLiteral(b) = HexLiteral(hex.EncodeToString(b))`. -/
def NewHexLiteral (b : Bytes) : Object := Object.hexLiteral (EncodeToString b)

/-- The constructor `NewIntegerArray(...)`. -/
def NewIntegerArray (xs : List Int) : Object := Object.array (xs.map Object.integer)

/-- The constructor `NewNumberArray(...)` for integral arguments. -/
def NewNumberArray (xs : List Int) : Object := Object.array (xs.map Object.float)

/-- Modelled from the spec: the cross reference table, "create object, obtain reference,
dereference a reference".  Object number `n` is position `n` of `Table` (`none` is a free
entry), `Size` is the length of the table, `Root` the object number of the catalog. -/
structure XRefTable where
  Table : List (Option Object)
  Root : Option Nat

/-- Modelled from the spec: the object an object number is bound to. -/
def XRefTable.object (x : XRefTable) (objNr : Nat) : Option Object := x.Table.getD objNr none

/-- Modelled from the spec: `XRefTable.Dereference`, following an indirect reference. -/
def XRefTable.Dereference (x : XRefTable) (o : Object) : Option Object :=
  match o with
  | Object.indirectRef objNr _ => x.object objNr
  | o => some o

/-- Modelled from the spec: `XRefTable.Catalog`, the root dictionary. -/
def XRefTable.Catalog (x : XRefTable) : Except Err Dict :=
  match x.Root with
  | none => Except.error Err.missingCatalog
  | some r =>
    match x.object r with
    | some (Object.dict d) => Except.ok d
    | _ => Except.error Err.missingCatalog

/-- Modelled from the spec: the table after a new object was inserted; the object is bound
to the next object number. -/
def XRefTable.append (x : XRefTable) (obj : Object) : XRefTable :=
  { x with Table := x.Table ++ [some obj] }

/-- Modelled from the spec: `XRefTable.IndRefForNewObject`, "create object, obtain
reference": the object takes the next object number, generation 0. -/
def XRefTable.IndRefForNewObject (x : XRefTable) (obj : Object) :
    Except Err (Object × XRefTable) :=
  Except.ok (Object.indirectRef x.Table.length 0, x.append obj)

/-- Rebinding an object number: the effect on the table of mutating the map stored there. -/
def XRefTable.rebind (x : XRefTable) (objNr : Nat) (obj : Object) : XRefTable :=
  { x with Table := x.Table.set objNr (some obj) }

/-- The catalog is a map stored in the table: mutating it rebinds the root object. -/
def XRefTable.setCatalog (x : XRefTable) (d : Dict) : XRefTable :=
  match x.Root with
  | some r => x.rebind r (Object.dict d)
  | none => x

/-! ## The context -/

/-- Modelled from the spec: the part of `Configuration` used here. -/
structure Configuration where
  WriteObjectStream : Bool
  deriving DecidableEq, Repr

/-- Modelled from the spec: the Write Layout inside `ctx.Write`, with the output location. -/
structure WriteContext where
  DirName : String
  FileName : String
  OffsetSigByteRange : Int
  OffsetSigContents : Int
  FileSize : Int
  deriving DecidableEq, Repr

/-- Modelled from the spec: the `Context`. -/
structure Context where
  Configuration : Configuration
  Write : WriteContext
  XRefTable : XRefTable

/-- The `Signer` interface.  `EstimateSignatureLength()` answers the same at every call;
`Sign` receives what its reader delivers. -/
structure Signer where
  EstimateSignatureLength : Int
  Sign : Stream → Except Err Bytes

/-- The Layout Writer `Write(ctx)`, an external collaborator: it serializes the document into
the file system and records the Write Layout in the context. -/
abbrev Writer := Context → FS → Context × FS × Option Err

set_option linter.unusedVariables false

/-! ## `Sign` -/

/-- Lines 49 to 63 of `Sign`: the four integers handed to `NewIntegerArray`, computed from
the Write Layout and the estimate of the signer. -/
def signByteRange (w : WriteContext) (maxSigContentBytes : Int) : List Int :=
  let a0 : Int := 0
  let a1 := w.OffsetSigContents
  let a2 := wrap64 (wrap64 (w.OffsetSigContents + 2) + wrap64 (maxSigContentBytes * 2))
  let a3 := w.FileSize
  [a0, wrap64 (a1 - a0), a2, wrap64 (a3 - a2)]

/-- Lines 77 to 80 of `Sign`: the stream handed to the signer, read from the file `f`. -/
def signReader (w : WriteContext) (maxSigContentBytes : Int) (f : Bytes) : Stream :=
  let a0 : Int := 0
  let a1 := w.OffsetSigContents
  let a2 := wrap64 (wrap64 (w.OffsetSigContents + 2) + wrap64 (maxSigContentBytes * 2))
  let a3 := w.FileSize
  let part0 := (NewSectionReader a0 (wrap64 (a1 - a0))).readAll f
  let part1 := (NewSectionReader a2 (wrap64 (a3 - a2))).readAll f
  MultiReader part0 part1

/-- Lines 37 to 44 of `Sign`: the context handed to the Layout Writer. -/
def signTarget (ctx : Context) (outFile : String) : Context :=
  -- hack
  let ctx := { ctx with Configuration := { ctx.Configuration with WriteObjectStream := false } }
  -- Write to outFile
  { ctx with Write := { ctx.Write with DirName := ".", FileName := outFile } }

/-- Lines 70 to 90 of `Sign`: the file is reopened, the two sections are handed to the signer
and the hex encoding of its result is patched in at `OffsetSigContents + 1`.
`maxSigContentBytes` is the local variable of line 40. -/
def signContents (ctx : Context) (fs : FS) (outFile : String) (signer : Signer)
    (maxSigContentBytes : Int) : Context × FS × Option Err :=
  -- Read hashed part of file
  match fs outFile with
  | none => (ctx, fs, some Err.notExist)
  | some f =>
    let pdfReader := signReader ctx.Write maxSigContentBytes f
    -- Create signature(outFile, byteRanges)
    match signer.Sign pdfReader with
    | Except.error err => (ctx, fs, some err)
    | Except.ok sig =>
      let bb := toBytes (EncodeToString sig)
      -- Patch "Contents" in signature dict.
      let r := patchFile fs outFile bb (wrap64 (ctx.Write.OffsetSigContents + 1))
      (ctx, r.1, r.2)

/-- The method `Context.Sign(outFile, sigDict, signer)`.  `Write` is the Layout Writer and
`PDFString` the serializer of objects, both defined outside this file.  The result is the
context and the file system as the call leaves them, and the returned error. -/
def Sign (Write : Writer) (PDFString : Object → Bytes) (ctx : Context) (fs : FS)
    (outFile : String) (sigDict : Dict) (signer : Signer) : Context × FS × Option Err :=
  let maxSigContentBytes := signer.EstimateSignatureLength
  match Write (signTarget ctx outFile) fs with
  | (ctx, fs, some err) => (ctx, fs, some err)
  | (ctx, fs, none) =>
    let a := NewIntegerArray (signByteRange ctx.Write maxSigContentBytes)
    -- Patch "ByteArray" in signature dict.
    match patchFile fs outFile (PDFString a) ctx.Write.OffsetSigByteRange with
    | (fs, some err) => (ctx, fs, some err)
    | (fs, none) => signContents ctx fs outFile signer maxSigContentBytes

/-! ## `PrepareSignature` and `PrepareTimestamp` -/

/-- The effect on the table of `p0.Update("Annots", annots)`.  The dictionaries are maps, so
the updated `p0` is seen wherever the dictionary is stored: under its object number when
`kids[0]` is a reference, inside the `Kids` array of the page tree root otherwise, and that
root in turn under its object number or inside the catalog. -/
def storeWalkedNode (x : XRefTable) (rootDict : Dict) (pgRef : Object) (pgd : Dict)
    (k0 : Object) (kids : Array) (p0 : Dict) : XRefTable :=
  match k0 with
  | Object.indirectRef n _ => x.rebind n (Object.dict p0)
  | _ =>
    let pgd := Dict.set pgd "Kids" (Object.array (Object.dict p0 :: kids))
    match pgRef with
    | Object.indirectRef m _ => x.rebind m (Object.dict pgd)
    | _ => x.setCatalog (Dict.set rootDict "Pages" (Object.dict pgd))

/-- Lines 183 to 190 (and 286 to 293): the walk catalog, `Pages`, `Kids[0]` and the update of
`Annots` on the dictionary found there.  `none` is a run-time panic (`pg.(Dict)` on a
non-dictionary, `kids[0]` on an empty array, `p0.Update` on a nil map). -/
def linkWalkedNode (x : XRefTable) (ir : Object) : Option XRefTable :=
  match x.Catalog with
  | Except.error _ => none
  | Except.ok rootDict =>
    match Dict.Find rootDict "Pages" with
    | none => none
    | some pgRef =>
      match x.Dereference pgRef with
      | some (Object.dict pgd) =>
        match Dict.ArrayEntry pgd "Kids" with
        | [] => none
        | k0 :: kids =>
          match x.Dereference k0 with
          | some (Object.dict p0) =>
            let annots : Array := [ir]
            some (storeWalkedNode x rootDict pgRef pgd k0 kids
              (Dict.Update p0 "Annots" (Object.array annots)))
          | _ => none
      | _ => none

/-- The dictionary the walk of lines 184 to 187 reaches: `Kids[0]` of the catalog's `Pages`
node, dereferenced, with no descent into the page tree and no look at its `Type`.  It is
the first page of the document only when the page tree is flat. -/
def walkedNode (x : XRefTable) : Option Dict :=
  match x.Catalog with
  | Except.error _ => none
  | Except.ok rootDict =>
    match Dict.Find rootDict "Pages" with
    | none => none
    | some pgRef =>
      match x.Dereference pgRef with
      | some (Object.dict pgd) =>
        match Dict.ArrayEntry pgd "Kids" with
        | [] => none
        | k0 :: _ =>
          match x.Dereference k0 with
          | some (Object.dict p0) => some p0
          | _ => none
      | _ => none

/-- Modelled from the spec: the first page of the document, "catalog → page tree → first
page".  From a node of the page tree the first kid is followed as long as the node is an
intermediate node (`Type` is `Pages`); the first node that is not one is the page.  `fuel`
bounds the descent. -/
def firstPageFrom (x : XRefTable) : Nat → Object → Option Dict
  | 0, _ => none
  | fuel + 1, o =>
    match x.Dereference o with
    | some (Object.dict d) =>
      match Dict.Find d "Type" with
      | some (Object.name "Pages") =>
        match Dict.ArrayEntry d "Kids" with
        | [] => none
        | k0 :: _ => firstPageFrom x fuel k0
      | _ => some d
    | _ => none

/-- Modelled from the spec: the first page of the document, found from the catalog's `Pages`
entry; the descent is bounded by the number of objects. -/
def firstPage (x : XRefTable) : Option Dict :=
  match x.Catalog with
  | Except.error _ => none
  | Except.ok rootDict =>
    match Dict.Find rootDict "Pages" with
    | none => none
    | some pgRef => firstPageFrom x (x.Table.length + 1) pgRef

/-- The walk of lines 184 to 187 succeeds along the named objects. -/
def IsWalk (x : XRefTable) (rootDict : Dict) (pgRef : Object) (pgd : Dict)
    (k0 : Object) (kids : Array) (p0 : Dict) : Prop :=
  x.Catalog = Except.ok rootDict ∧ Dict.Find rootDict "Pages" = some pgRef ∧
  x.Dereference pgRef = some (Object.dict pgd) ∧ Dict.ArrayEntry pgd "Kids" = k0 :: kids ∧
  x.Dereference k0 = some (Object.dict p0)

/-- Two dictionaries have the same entries under every key outside `ks`. -/
def DictAgree (ks : List String) (d d' : Dict) : Prop :=
  ∀ k, k ∉ ks → Dict.Find d' k = Dict.Find d k

/-- Two table entries are equal, or dictionaries that agree outside `ks`. -/
def ObjAgree (ks : List String) (o o' : Option Object) : Prop :=
  o' = o ∨ ∃ d d', o = some (Object.dict d) ∧ o' = some (Object.dict d') ∧ DictAgree ks d d'

/-- Two tables have the same root and entries that agree outside `ks`. -/
def TableAgree (ks : List String) (x x' : XRefTable) : Prop :=
  x'.Root = x.Root ∧ x'.Table.length = x.Table.length ∧
  ∀ n, ObjAgree ks (x.object n) (x'.object n)

/-- The dictionary `sigFieldDict` of lines 168 to 177 (271 to 280): the signature field, a
widget annotation whose value `V` is the reference to the signature dictionary. -/
def sigFieldDict (ir : Object) : Dict :=
  [("Type", Object.name "Annot"),
   ("Subtype", Object.name "Widget"),
   ("FT", Object.name "Sig"),
   ("T", Object.stringLiteral "Signature"),
   ("Rect", NewNumberArray [0, 0, 0, 0]),
   ("V", ir)]

/-- The dictionary `formDict` of lines 200 to 205 (303 to 308): the form container. -/
def formDict (ir : Object) : Dict :=
  [("Fields", Object.array [ir]),
   ("SigFlags", Object.integer 3)]

/-- Lines 148 to 213 of `PrepareSignature`, which are lines 251 to 316 of `PrepareTimestamp`
word for word: the signature dictionary becomes a new object, the signature field is
created and linked to the dictionary the walk of lines 184 to 187 reaches, the form
dictionary is created and inserted into the catalog.  The returned dictionary is the map stored under the first new object number. -/
def prepareFrom (ctx : Context) (sigDict : Dict) : Context × Except Err Dict :=
  let xRefTable := ctx.XRefTable
  match xRefTable.IndRefForNewObject (Object.dict sigDict) with
  | Except.error err => (ctx, Except.error err)
  | Except.ok (ir, xRefTable) =>
    let sigNr := ctx.XRefTable.Table.length
    -- Create Acrofield
    match xRefTable.IndRefForNewObject (Object.dict (sigFieldDict ir)) with
    | Except.error err => ({ ctx with XRefTable := xRefTable }, Except.error err)
    | Except.ok (ir, xRefTable) =>
      -- Link 1st page to Signature Field dictionary
      match linkWalkedNode xRefTable ir with
      | none => ({ ctx with XRefTable := xRefTable }, Except.error Err.runtimePanic)
      | some xRefTable =>
        -- Create AcroForm
        match xRefTable.IndRefForNewObject (Object.dict (formDict ir)) with
        | Except.error err => ({ ctx with XRefTable := xRefTable }, Except.error err)
        | Except.ok (ir, xRefTable) =>
          match xRefTable.Catalog with
          | Except.error _ => ({ ctx with XRefTable := xRefTable }, Except.error Err.runtimePanic)
          | Except.ok rootDict =>
            let xRefTable := xRefTable.setCatalog (Dict.Insert rootDict "AcroForm" ir)
            match xRefTable.object sigNr with
            | some (Object.dict d) => ({ ctx with XRefTable := xRefTable }, Except.ok d)
            | _ => ({ ctx with XRefTable := xRefTable }, Except.ok sigDict)

/-- The dictionary `sigDict` of lines 137 to 146 of `PrepareSignature`. -/
def signatureDict (now : String) (maxSigContentBytes : Int) : Dict :=
  [("Type", Object.name "Sig"),
   ("Filter", Object.name "Adobe.PPKLite"),
   ("SubFilter", Object.name "adbe.pkcs7.detached"),
   ("Contents", NewHexLiteral (List.replicate maxSigContentBytes.toNat 0)),
   ("ByteRange", Object.array []),
   ("M", Object.stringLiteral now)]

/-- The dictionary `sigDict` of lines 241 to 249 of `PrepareTimestamp`. -/
def timestampDict (maxSigContentBytes : Int) : Dict :=
  [("Type", Object.name "DocTimeStamp"),
   ("Filter", Object.name "Adobe.PPKLite"),
   ("SubFilter", Object.name "ETSI.RFC3161"),
   ("Contents", NewHexLiteral (List.replicate maxSigContentBytes.toNat 0)),
   ("ByteRange", Object.array [])]

/-- The method `Context.PrepareSignature(signer)`.  `now` is `DateString(time.Now())`;
`make([]byte, maxSigContentBytes)` panics for a negative length. -/
def PrepareSignature (now : String) (ctx : Context) (signer : Signer) :
    Context × Except Err Dict :=
  -- hack
  let ctx := { ctx with Configuration := { ctx.Configuration with WriteObjectStream := false } }
  let xRefTable := ctx.XRefTable
  match xRefTable.Catalog with
  | Except.error err => (ctx, Except.error err)
  | Except.ok rootDict =>
    match Dict.Find rootDict "AcroForm" with
    | some _ => (ctx, Except.error ErrHasAcroForm)
    | none =>
      let maxSigContentBytes := signer.EstimateSignatureLength
      if maxSigContentBytes < 0 then (ctx, Except.error Err.runtimePanic)
      else
        let sigDict := signatureDict now maxSigContentBytes
        prepareFrom ctx sigDict

/-- The method `Context.PrepareTimestamp(signer)`. -/
def PrepareTimestamp (ctx : Context) (signer : Signer) : Context × Except Err Dict :=
  -- hack
  let ctx := { ctx with Configuration := { ctx.Configuration with WriteObjectStream := false } }
  let xRefTable := ctx.XRefTable
  match xRefTable.Catalog with
  | Except.error err => (ctx, Except.error err)
  | Except.ok rootDict =>
    match Dict.Find rootDict "AcroForm" with
    | some _ => (ctx, Except.error ErrHasAcroForm)
    | none =>
      let maxSigContentBytes := signer.EstimateSignatureLength
      if maxSigContentBytes < 0 then (ctx, Except.error Err.runtimePanic)
      else
        let sigDict := timestampDict maxSigContentBytes
        prepareFrom ctx sigDict

/-! ## Fixtures -/

/-- A file system holding the single three byte file `out.pdf`. -/
def smallFS : FS := fun n => if n = "out.pdf" then some [1, 2, 3] else none

/-- Decimal digits of a natural number, most significant first; `fuel` bounds their number. -/
def decimal : Nat → Nat → Bytes
  | 0, _ => []
  | fuel + 1, n => if n < 10 then [48 + n] else decimal fuel (n / 10) ++ [48 + n % 10]

/-- A serializer for the fixtures: an array of four non-negative integers is written as
`[a b c d]`, every other object as nothing. -/
def demoPDFString : Object → Bytes
  | Object.array [Object.integer a, Object.integer b, Object.integer c, Object.integer d] =>
    [91] ++ decimal 20 a.toNat ++ [32] ++ decimal 20 b.toNat ++ [32] ++ decimal 20 c.toNat
      ++ [32] ++ decimal 20 d.toNat ++ [93]
  | _ => []

/-- The eighteen bytes `[         ]<0000>` and a line feed: a byte-range slot of eleven bytes
at offset 0 and a content slot for two signature bytes at offset 11. -/
def demoFile : Bytes :=
  [91, 32, 32, 32, 32, 32, 32, 32, 32, 32, 93, 60, 48, 48, 48, 48, 62, 10]

/-- A Layout Writer for the fixtures: it writes `demoFile` under the requested name and
reports the byte-range slot at 0, the content slot at 11 and the file size 18. -/
def demoWriter : Writer := fun ctx fs =>
  ({ ctx with Write := { ctx.Write with OffsetSigByteRange := 0, OffsetSigContents := 11,
                                         FileSize := 18 } },
   fs.store ctx.Write.FileName demoFile, none)

/-- A document with a catalog (object 1), a page tree (object 2), one page (object 3) that
carries one annotation (object 4). -/
def demoXRefTable : XRefTable :=
  ⟨[none,
    some (Object.dict [("Type", Object.name "Catalog"), ("Pages", Object.indirectRef 2 0)]),
    some (Object.dict [("Type", Object.name "Pages"),
      ("Kids", Object.array [Object.indirectRef 3 0])]),
    some (Object.dict [("Type", Object.name "Page"),
      ("Annots", Object.array [Object.indirectRef 4 0])]),
    some (Object.dict [("Type", Object.name "Annot"), ("Subtype", Object.name "Link")])],
   some 1⟩

/-- A context over `demoXRefTable`. -/
def demoContext : Context := ⟨⟨true⟩, ⟨"", "", 0, 0, 0⟩, demoXRefTable⟩

/-- A signer with estimate `n` that answers every stream with `out`. -/
def constSigner (n : Int) (out : Bytes) : Signer := ⟨n, fun _ => Except.ok out⟩

/-- A document with a nested page tree: the catalog (object 1), the root of the page tree
(object 2) whose only kid is an intermediate node (object 3) with the two pages (objects 4
and 5) as kids; the first page carries one annotation (object 6). -/
def nestedXRefTable : XRefTable :=
  ⟨[none,
    some (Object.dict [("Type", Object.name "Catalog"), ("Pages", Object.indirectRef 2 0)]),
    some (Object.dict [("Type", Object.name "Pages"),
      ("Kids", Object.array [Object.indirectRef 3 0]), ("Count", Object.integer 2)]),
    some (Object.dict [("Type", Object.name "Pages"), ("Parent", Object.indirectRef 2 0),
      ("Kids", Object.array [Object.indirectRef 4 0, Object.indirectRef 5 0]),
      ("Count", Object.integer 2)]),
    some (Object.dict [("Type", Object.name "Page"), ("Parent", Object.indirectRef 3 0),
      ("Annots", Object.array [Object.indirectRef 6 0])]),
    some (Object.dict [("Type", Object.name "Page"), ("Parent", Object.indirectRef 3 0)]),
    some (Object.dict [("Type", Object.name "Annot"), ("Subtype", Object.name "Link")])],
   some 1⟩

/-- A context over `nestedXRefTable`. -/
def nestedContext : Context := ⟨⟨true⟩, ⟨"", "", 0, 0, 0⟩, nestedXRefTable⟩

/-- A document whose catalog already carries an `AcroForm` entry. -/
def signedXRefTable : XRefTable :=
  ⟨[none,
    some (Object.dict [("Type", Object.name "Catalog"), ("Pages", Object.indirectRef 2 0),
      ("AcroForm", Object.indirectRef 4 0)]),
    some (Object.dict [("Type", Object.name "Pages"),
      ("Kids", Object.array [Object.indirectRef 3 0])]),
    some (Object.dict [("Type", Object.name "Page")]),
    some (Object.dict [("Fields", Object.array []), ("SigFlags", Object.integer 3)])],
   some 1⟩

/-- A context over `signedXRefTable`. -/
def signedContext : Context := ⟨⟨true⟩, ⟨"", "", 0, 0, 0⟩, signedXRefTable⟩

/-! ## Lemmas on files -/

theorem writeAt_length (content bb : Bytes) (off : Nat) (hbb : bb ≠ []) :
    (writeAt content bb off).length = max content.length (off + bb.length) := by
  cases bb with
  | nil => exact absurd rfl hbb
  | cons b bs =>
    simp only [writeAt, List.length_append, List.length_take, List.length_replicate,
      List.length_drop, List.length_cons]
    omega

theorem take_writeAt (content bb : Bytes) (off k : Nat) (hk : k ≤ off)
    (hlen : k ≤ content.length) : (writeAt content bb off).take k = content.take k := by
  cases bb with
  | nil => rfl
  | cons b bs =>
    simp only [writeAt, List.append_assoc]
    rw [List.take_append_of_le_length, List.take_take, Nat.min_eq_left hk,
      List.take_append_of_le_length hlen]
    simp only [List.length_take, List.length_append, List.length_replicate]
    omega

theorem drop_writeAt (content bb : Bytes) (off k : Nat) (hk : off + bb.length ≤ k) :
    (writeAt content bb off).drop k = content.drop k := by
  cases bb with
  | nil => rfl
  | cons b bs =>
    have h1 : ((content ++ List.replicate (off - content.length) 0).take off).length = off := by
      simp only [List.length_take, List.length_append, List.length_replicate]
      omega
    simp only [writeAt]
    rw [List.drop_append_eq_append_drop, List.drop_append_eq_append_drop]
    simp only [List.length_append, h1, List.drop_drop]
    rw [List.drop_eq_nil_of_le, List.drop_eq_nil_of_le]
    · simp only [List.nil_append]
      congr 1
      simp only [List.length_cons] at hk ⊢
      omega
    · simp only [List.length_cons] at hk ⊢; omega
    · omega

theorem slice_writeAt (content bb : Bytes) (off : Nat) :
    ((writeAt content bb off).drop off).take bb.length = bb := by
  cases bb with
  | nil => simp
  | cons b bs =>
    have h1 : ((content ++ List.replicate (off - content.length) 0).take off).length = off := by
      simp only [List.length_take, List.length_append, List.length_replicate]
      omega
    simp only [writeAt, List.append_assoc]
    rw [List.drop_append_eq_append_drop, h1, List.drop_eq_nil_of_le (by omega)]
    simp

theorem length_le_writeAt (content bb : Bytes) (off : Nat) :
    content.length ≤ (writeAt content bb off).length := by
  cases hbb : bb with
  | nil => simp [writeAt]
  | cons b bs =>
    rw [writeAt_length _ _ _ (by simp)]
    omega

theorem writeAt_eq_of_le (content bb : Bytes) (off : Nat) (h : off ≤ content.length) :
    writeAt content bb off = content.take off ++ bb ++ content.drop (off + bb.length) := by
  cases bb with
  | nil => simp [writeAt]
  | cons b bs =>
    simp only [writeAt]
    rw [List.take_append_of_le_length h]

theorem getElem?_writeAt_before (content bb : Bytes) (off i : Nat) (hi : i < off)
    (hlen : i < content.length) : (writeAt content bb off)[i]? = content[i]? := by
  have h := take_writeAt content bb off (i + 1) (by omega) (by omega)
  have h1 : ((writeAt content bb off).take (i + 1))[i]? = (content.take (i + 1))[i]? := by
    rw [h]
  simpa [List.getElem?_take] using h1

theorem getElem?_writeAt_after (content bb : Bytes) (off i : Nat)
    (hi : off + bb.length ≤ i) : (writeAt content bb off)[i]? = content[i]? := by
  have h := drop_writeAt content bb off i hi
  have h1 : ((writeAt content bb off).drop i)[0]? = (content.drop i)[0]? := by rw [h]
  simpa [List.getElem?_drop] using h1

/-! ## Lemmas on machine integers -/

theorem wrap64_eq_self (x : Int) (h : IsInt64 x) : wrap64 x = x := by
  unfold IsInt64 minInt64 maxInt64 at h
  unfold wrap64
  omega

theorem wrap64_add_left (a b : Int) : wrap64 (wrap64 a + b) = wrap64 (a + b) := by
  unfold wrap64
  omega

theorem wrap64_add_right (a b : Int) : wrap64 (a + wrap64 b) = wrap64 (a + b) := by
  unfold wrap64
  omega

theorem wrap64_sub_right (a b : Int) : wrap64 (a - wrap64 b) = wrap64 (a - b) := by
  unfold wrap64
  omega

theorem signByteRange_eq (w : WriteContext) (N : Int) :
    signByteRange w N =
      [0, wrap64 w.OffsetSigContents, wrap64 (w.OffsetSigContents + 2 + 2 * N),
        wrap64 (w.FileSize - (w.OffsetSigContents + 2 + 2 * N))] := by
  simp only [signByteRange, wrap64_add_left, wrap64_add_right, wrap64_sub_right, sub_zero]
  rw [show w.OffsetSigContents + 2 + N * 2 = w.OffsetSigContents + 2 + 2 * N by ring]

/-! ## Lemmas on `Sign` -/

theorem toList_EncodeToString (src : Bytes) :
    (EncodeToString src).toList =
      src.flatMap fun v => [hextable.getD (v / 16) '0', hextable.getD (v % 16) '0'] := rfl

theorem length_toBytes_EncodeToString (src : Bytes) :
    (toBytes (EncodeToString src)).length = 2 * src.length := by
  simp only [toBytes, toList_EncodeToString, List.length_map]
  induction src with
  | nil => rfl
  | cons b bs ih =>
    simp only [List.flatMap_cons, List.length_append, List.length_cons, List.length_nil, ih]
    omega

theorem signReader_eq (w : WriteContext) (N : Int) (f : Bytes)
    (hc : 0 ≤ w.OffsetSigContents) (hN : 0 ≤ N)
    (hfit : w.OffsetSigContents + 2 + 2 * N ≤ w.FileSize) (hF : w.FileSize ≤ maxInt64) :
    signReader w N f =
      ⟨f.take w.OffsetSigContents.toNat ++
        (f.drop (w.OffsetSigContents + 2 + 2 * N).toNat).take
          (w.FileSize - (w.OffsetSigContents + 2 + 2 * N)).toNat, none⟩ := by
  have h2 : wrap64 (wrap64 (w.OffsetSigContents + 2) + wrap64 (N * 2))
      = w.OffsetSigContents + 2 + 2 * N := by
    unfold maxInt64 at hF
    unfold wrap64
    omega
  have h1 : wrap64 (w.OffsetSigContents - 0) = w.OffsetSigContents := by
    unfold maxInt64 at hF
    unfold wrap64
    omega
  have h3 : wrap64 (w.FileSize - (w.OffsetSigContents + 2 + 2 * N))
      = w.FileSize - (w.OffsetSigContents + 2 + 2 * N) := by
    unfold maxInt64 at hF
    unfold wrap64
    omega
  have h4 : wrap64 (maxInt64 - w.OffsetSigContents) = maxInt64 - w.OffsetSigContents := by
    unfold maxInt64 at hF ⊢
    unfold wrap64
    omega
  have h5 : wrap64 (maxInt64 - (w.FileSize - (w.OffsetSigContents + 2 + 2 * N)))
      = maxInt64 - (w.FileSize - (w.OffsetSigContents + 2 + 2 * N)) := by
    unfold maxInt64 at hF ⊢
    unfold wrap64
    omega
  have h6 : wrap64 (w.OffsetSigContents + 0) = w.OffsetSigContents := by
    unfold maxInt64 at hF
    unfold wrap64
    omega
  have h7 : wrap64 (w.FileSize - (w.OffsetSigContents + 2 + 2 * N)
      + (w.OffsetSigContents + 2 + 2 * N)) = w.FileSize := by
    unfold maxInt64 at hF
    unfold wrap64
    omega
  have hp0 : (NewSectionReader 0 w.OffsetSigContents).readAll f
      = ⟨f.take w.OffsetSigContents.toNat, none⟩ := by
    have hle : (0 : Int) ≤ maxInt64 - w.OffsetSigContents := by
      unfold maxInt64 at hF ⊢; omega
    simp only [NewSectionReader, h4, hle, if_true, h6, SectionReader.readAll]
    by_cases hz : w.OffsetSigContents ≤ 0
    · have : w.OffsetSigContents = 0 := by omega
      simp [this]
    · have hov : ¬ wrap64 (w.OffsetSigContents - 0) < 0 := by rw [h1]; omega
      rw [if_neg (by omega), if_neg hov, if_neg (by omega)]
      simp
  have hp1 : (NewSectionReader (w.OffsetSigContents + 2 + 2 * N)
        (w.FileSize - (w.OffsetSigContents + 2 + 2 * N))).readAll f
      = ⟨(f.drop (w.OffsetSigContents + 2 + 2 * N).toNat).take
          (w.FileSize - (w.OffsetSigContents + 2 + 2 * N)).toNat, none⟩ := by
    have hle : w.OffsetSigContents + 2 + 2 * N
        ≤ maxInt64 - (w.FileSize - (w.OffsetSigContents + 2 + 2 * N)) := by
      omega
    simp only [NewSectionReader, h5, hle, if_true, h7, SectionReader.readAll]
    by_cases hz : w.FileSize ≤ w.OffsetSigContents + 2 + 2 * N
    · have : w.FileSize - (w.OffsetSigContents + 2 + 2 * N) = 0 := by omega
      simp [hz, this]
    · have hneg : ¬ (w.OffsetSigContents + 2 + 2 * N < 0) := by omega
      have hov : ¬ wrap64 (w.FileSize - (w.OffsetSigContents + 2 + 2 * N)) < 0 := by
        rw [h3]; omega
      rw [if_neg (by omega), if_neg hov, if_neg hneg]
  simp only [signReader, h1, h2, h3, hp0, hp1, MultiReader]

theorem sign_run (Write : Writer) (PDFString : Object → Bytes) (ctx : Context) (fs : FS)
    (outFile : String) (sigDict : Dict) (signer : Signer) (ctx1 : Context) (fs1 : FS)
    (written f1 sig : Bytes)
    (hw : Write (signTarget ctx outFile) fs = (ctx1, fs1, none))
    (hfile : fs1 outFile = some written)
    (hbr : 0 ≤ ctx1.Write.OffsetSigByteRange)
    (hc1 : 0 ≤ wrap64 (ctx1.Write.OffsetSigContents + 1))
    (hf1 : f1 = writeAt written
      (PDFString (NewIntegerArray (signByteRange ctx1.Write signer.EstimateSignatureLength)))
      ctx1.Write.OffsetSigByteRange.toNat)
    (hsig : signer.Sign (signReader ctx1.Write signer.EstimateSignatureLength f1)
      = Except.ok sig) :
    Sign Write PDFString ctx fs outFile sigDict signer =
      (ctx1, (fs1.store outFile f1).store outFile
        (writeAt f1 (toBytes (EncodeToString sig))
          (wrap64 (ctx1.Write.OffsetSigContents + 1)).toNat), none) := by
  have hbr' : ¬ ctx1.Write.OffsetSigByteRange < 0 := by omega
  have hc1' : ¬ wrap64 (ctx1.Write.OffsetSigContents + 1) < 0 := by omega
  have hst : (fs1.store outFile f1) outFile = some f1 := by simp [FS.store]
  simp only [Sign, hw, patchFile, hfile, hbr', if_false, ← hf1, signContents, hst, hsig, hc1']

theorem writeAt_slot (pre post hex : Bytes) (z : Nat) (hz : hex.length ≤ z) :
    writeAt (pre ++ 60 :: (List.replicate z 48 ++ 62 :: post)) hex (pre.length + 1)
      = pre ++ 60 :: (hex ++ List.replicate (z - hex.length) 48 ++ 62 :: post) := by
  rw [writeAt_eq_of_le _ _ _ (by simp)]
  have h1 : (pre ++ 60 :: (List.replicate z 48 ++ 62 :: post)).take (pre.length + 1)
      = pre ++ [60] := by
    rw [List.take_append_eq_append_take]
    simp
  have h2 : (pre ++ 60 :: (List.replicate z 48 ++ 62 :: post)).drop
      (pre.length + 1 + hex.length)
      = List.replicate (z - hex.length) 48 ++ 62 :: post := by
    rw [List.drop_append_eq_append_drop, List.drop_eq_nil_of_le (by omega)]
    have : pre.length + 1 + hex.length - pre.length = hex.length + 1 := by omega
    rw [this, List.nil_append, List.drop_succ_cons, List.drop_append_eq_append_drop]
    simp [List.drop_replicate, Nat.sub_eq_zero_of_le hz]
  rw [h1, h2]
  simp

theorem split_at_slot (f slot : Bytes) (c k : Nat) (h : (f.drop c).take k = slot)
    (hk : slot.length = k) (hpos : 0 < k) :
    f = f.take c ++ slot ++ f.drop (c + k) ∧ (f.take c).length = c ∧ c + k ≤ f.length := by
  have hlen : c + k ≤ f.length := by
    have := congrArg List.length h
    rw [List.length_take, List.length_drop, hk] at this
    omega
  refine ⟨?_, by rw [List.length_take]; omega, hlen⟩
  rw [← h, List.append_assoc]
  have : f.drop (c + k) = (f.drop c).drop k := by rw [List.drop_drop]
  rw [this, List.take_append_drop, List.take_append_drop]

theorem slot_writeAt_disjoint (f bb : Bytes) (off c k : Nat)
    (hdisj : off + bb.length ≤ c ∨ c + k ≤ off) (hck : c + k ≤ f.length) :
    ((writeAt f bb off).drop c).take k = (f.drop c).take k := by
  rcases hdisj with h | h
  · rw [drop_writeAt f bb off c h]
  · have ht := take_writeAt f bb off (c + k) h hck
    have := congrArg (List.drop c) ht
    simpa [List.drop_take] using this

theorem length_writeAt_of_fit (f bb : Bytes) (off : Nat) (h : off + bb.length ≤ f.length) :
    (writeAt f bb off).length = f.length := by
  cases hbb : bb with
  | nil => rfl
  | cons b bs =>
    rw [writeAt_length _ _ _ (by simp), ← hbb]
    omega

/-! ## Lemmas on the object model -/

theorem find_set_same (d : Dict) (key : String) (value : Object) :
    Dict.Find (Dict.set d key value) key = some value := by
  induction d with
  | nil => simp [Dict.set, Dict.Find]
  | cons e es ih =>
    obtain ⟨k, v⟩ := e
    by_cases h : k = key
    · simp [Dict.set, Dict.Find, h]
    · simp [Dict.set, Dict.Find, h, ih]

theorem find_set_other (d : Dict) (key other : String) (value : Object)
    (h : other ≠ key) : Dict.Find (Dict.set d key value) other = Dict.Find d other := by
  induction d with
  | nil =>
    have : ¬ key = other := fun e => h e.symm
    simp [Dict.set, Dict.Find, this]
  | cons e es ih =>
    obtain ⟨k, v⟩ := e
    by_cases hk : k = key
    · have : ¬ key = other := fun e => h e.symm
      simp [Dict.set, Dict.Find, hk, this]
    · by_cases hko : k = other
      · subst hko
        simp [Dict.set, Dict.Find, hk]
      · simp [Dict.set, Dict.Find, hk, hko, ih]

theorem find_Insert_other (d : Dict) (key other : String) (value : Object)
    (h : other ≠ key) : Dict.Find (Dict.Insert d key value) other = Dict.Find d other := by
  unfold Dict.Insert
  split
  · rfl
  · exact find_set_other d key other value h

theorem find_Insert_of_none (d : Dict) (key : String) (value : Object)
    (h : Dict.Find d key = none) : Dict.Find (Dict.Insert d key value) key = some value := by
  unfold Dict.Insert
  rw [h]
  exact find_set_same d key value

theorem object_eq_some (x : XRefTable) (n : Nat) (o : Object)
    (h : x.object n = some o) : n < x.Table.length := by
  unfold XRefTable.object at h
  by_contra hn
  rw [List.getD_eq_default _ _ (by omega)] at h
  exact absurd h (by simp)

theorem object_rebind (x : XRefTable) (n m : Nat) (o : Object) :
    (x.rebind n o).object m = if m = n ∧ n < x.Table.length then some o else x.object m := by
  unfold XRefTable.rebind XRefTable.object
  simp only [List.getD_eq_getElem?_getD, List.getElem?_set]
  by_cases hmn : n = m
  · subst hmn
    by_cases hlt : n < x.Table.length
    · simp [hlt]
    · have h3 : x.Table[n]? = none := by
        apply List.getElem?_eq_none; omega
      simp [hlt, h3]
  · have : ¬ m = n := fun e => hmn e.symm
    simp [hmn, this]

theorem length_rebind (x : XRefTable) (n : Nat) (o : Object) :
    (x.rebind n o).Table.length = x.Table.length := by
  simp [XRefTable.rebind]

theorem object_append (x : XRefTable) (o : Object) (m : Nat) :
    (x.append o).object m = if m = x.Table.length then some o else x.object m := by
  unfold XRefTable.append XRefTable.object
  simp only [List.getD_eq_getElem?_getD]
  by_cases h : m = x.Table.length
  · subst h; simp
  · by_cases hlt : m < x.Table.length
    · simp [h, List.getElem?_append_left hlt]
    · have h1 : x.Table.length + 1 ≤ m := by omega
      have h2 : (x.Table ++ [some o])[m]? = none := by
        apply List.getElem?_eq_none; simp; omega
      have h3 : x.Table[m]? = none := by
        apply List.getElem?_eq_none; omega
      simp [h, h2, h3]

theorem linkWalkedNode_of_walk (x : XRefTable) (ir : Object) (rootDict : Dict) (pgRef : Object)
    (pgd : Dict) (k0 : Object) (kids : Array) (p0 : Dict)
    (h : IsWalk x rootDict pgRef pgd k0 kids p0) :
    linkWalkedNode x ir = some (storeWalkedNode x rootDict pgRef pgd k0 kids
      (Dict.Update p0 "Annots" (Object.array [ir]))) := by
  obtain ⟨h1, h2, h3, h4, h5⟩ := h
  simp only [linkWalkedNode, h1, h2, h3, h4, h5]

theorem walkedNode_of_walk (x : XRefTable) (rootDict : Dict) (pgRef : Object)
    (pgd : Dict) (k0 : Object) (kids : Array) (p0 : Dict)
    (h : IsWalk x rootDict pgRef pgd k0 kids p0) : walkedNode x = some p0 := by
  obtain ⟨h1, h2, h3, h4, h5⟩ := h
  simp only [walkedNode, h1, h2, h3, h4, h5]

theorem walk_of_linkWalkedNode (x x' : XRefTable) (ir : Object)
    (h : linkWalkedNode x ir = some x') :
    ∃ rootDict pgRef pgd k0 kids p0, IsWalk x rootDict pgRef pgd k0 kids p0 ∧
      x' = storeWalkedNode x rootDict pgRef pgd k0 kids
        (Dict.Update p0 "Annots" (Object.array [ir])) := by
  unfold linkWalkedNode at h
  split at h
  · exact absurd h (by simp)
  · rename_i rootDict hcat
    split at h
    · exact absurd h (by simp)
    · rename_i pgRef hpg
      split at h
      · rename_i pgd hderef
        split at h
        · exact absurd h (by simp)
        · rename_i k0 kids hkids
          split at h
          · rename_i p0 hp0
            refine ⟨rootDict, pgRef, pgd, k0, kids, p0, ⟨hcat, hpg, hderef, hkids, hp0⟩, ?_⟩
            simpa using h.symm
          · exact absurd h (by simp)
      · exact absurd h (by simp)

theorem dictAgree_refl (ks : List String) (d : Dict) : DictAgree ks d d := fun _ _ => rfl

theorem catalog_eq_ok (x : XRefTable) (d : Dict) :
    x.Catalog = Except.ok d ↔ ∃ r, x.Root = some r ∧ x.object r = some (Object.dict d) := by
  unfold XRefTable.Catalog
  constructor
  · intro h
    split at h
    · exact absurd h (by simp)
    · rename_i r hr
      split at h
      · rename_i d' hd
        simp only [Except.ok.injEq] at h
        subst h
        exact ⟨r, hr, hd⟩
      · exact absurd h (by simp)
  · rintro ⟨r, hr, hd⟩
    simp only [hr, hd]

theorem Dereference_agree (ks : List String) (x x' : XRefTable) (hag : TableAgree ks x x')
    (o : Object) (d : Dict) (h : x.Dereference o = some (Object.dict d)) :
    ∃ d', x'.Dereference o = some (Object.dict d') ∧ DictAgree ks d d' := by
  cases o with
  | indirectRef n g =>
    simp only [XRefTable.Dereference] at h ⊢
    rcases hag.2.2 n with heq | ⟨d1, d1', h1, h1', hd⟩
    · exact ⟨d, by rw [heq, h], dictAgree_refl ks d⟩
    · rw [h1] at h
      simp only [Option.some.injEq, Object.dict.injEq] at h
      subst h
      exact ⟨d1', h1', hd⟩
  | name s => exact ⟨d, h, dictAgree_refl ks d⟩
  | stringLiteral s => exact ⟨d, h, dictAgree_refl ks d⟩
  | hexLiteral s => exact ⟨d, h, dictAgree_refl ks d⟩
  | integer i => exact ⟨d, h, dictAgree_refl ks d⟩
  | float f => exact ⟨d, h, dictAgree_refl ks d⟩
  | array a => exact ⟨d, h, dictAgree_refl ks d⟩
  | dict e => exact ⟨d, h, dictAgree_refl ks d⟩

theorem Catalog_agree (ks : List String) (x x' : XRefTable) (hag : TableAgree ks x x')
    (d : Dict) (h : x.Catalog = Except.ok d) :
    ∃ d', x'.Catalog = Except.ok d' ∧ DictAgree ks d d' := by
  obtain ⟨r, hr, hd⟩ := (catalog_eq_ok x d).1 h
  rcases hag.2.2 r with heq | ⟨d1, d1', h1, h1', hag'⟩
  · exact ⟨d, (catalog_eq_ok x' d).2 ⟨r, by rw [hag.1, hr], by rw [heq, hd]⟩,
      dictAgree_refl ks d⟩
  · rw [h1] at hd
    simp only [Option.some.injEq, Object.dict.injEq] at hd
    subst hd
    exact ⟨d1', (catalog_eq_ok x' d1').2 ⟨r, by rw [hag.1, hr], h1'⟩, hag'⟩

theorem path_agree (ks : List String) (x x' : XRefTable) (hp : "Pages" ∉ ks)
    (hk : "Kids" ∉ ks) (hag : TableAgree ks x x') (rootDict : Dict) (pgRef : Object)
    (pgd : Dict) (k0 : Object) (kids : Array) (p0 : Dict)
    (h : IsWalk x rootDict pgRef pgd k0 kids p0) :
    ∃ rootDict' pgd' p0', IsWalk x' rootDict' pgRef pgd' k0 kids p0' ∧
      DictAgree ks rootDict rootDict' ∧ DictAgree ks pgd pgd' ∧ DictAgree ks p0 p0' := by
  obtain ⟨h1, h2, h3, h4, h5⟩ := h
  obtain ⟨rootDict', hc', ha1⟩ := Catalog_agree ks x x' hag rootDict h1
  obtain ⟨pgd', hd', ha2⟩ := Dereference_agree ks x x' hag pgRef pgd h3
  obtain ⟨p0', hp', ha3⟩ := Dereference_agree ks x x' hag k0 p0 h5
  refine ⟨rootDict', pgd', p0', ⟨hc', ?_, hd', ?_, hp'⟩, ha1, ha2, ha3⟩
  · rw [ha1 _ hp, h2]
  · unfold Dict.ArrayEntry at h4 ⊢
    rw [ha2 _ hk]
    exact h4

theorem tableAgree_refl (ks : List String) (x : XRefTable) : TableAgree ks x x :=
  ⟨rfl, rfl, fun _ => Or.inl rfl⟩

theorem dictAgree_set (ks : List String) (d d' : Dict) (key : String) (v : Object)
    (h : DictAgree ks d d') : DictAgree ks (Dict.set d key v) (Dict.set d' key v) := by
  intro k hk
  by_cases hkk : k = key
  · subst hkk
    rw [find_set_same, find_set_same]
  · rw [find_set_other _ _ _ _ hkk, find_set_other _ _ _ _ hkk]
    exact h k hk

theorem dictAgree_set_self (ks : List String) (d : Dict) (key : String) (v : Object)
    (hkey : key ∈ ks) : DictAgree ks d (Dict.set d key v) := by
  intro k hk
  have : k ≠ key := fun e => hk (e ▸ hkey)
  exact find_set_other _ _ _ _ this

theorem tableAgree_rebind (ks : List String) (x y : XRefTable) (n : Nat) (d d' : Dict)
    (hag : TableAgree ks x y) (hd : DictAgree ks d d') :
    TableAgree ks (x.rebind n (Object.dict d)) (y.rebind n (Object.dict d')) := by
  refine ⟨hag.1, ?_, ?_⟩
  · rw [length_rebind, length_rebind]; exact hag.2.1
  · intro m
    rw [object_rebind, object_rebind, hag.2.1]
    by_cases hc : m = n ∧ n < x.Table.length
    · rw [if_pos hc, if_pos hc]
      exact Or.inr ⟨d, d', rfl, rfl, hd⟩
    · rw [if_neg hc, if_neg hc]
      exact hag.2.2 m

theorem tableAgree_rebind_self (ks : List String) (x : XRefTable) (n : Nat) (d d' : Dict)
    (h : x.object n = some (Object.dict d)) (hd : DictAgree ks d d') :
    TableAgree ks x (x.rebind n (Object.dict d')) := by
  refine ⟨rfl, length_rebind _ _ _, ?_⟩
  intro m
  rw [object_rebind]
  by_cases hc : m = n ∧ n < x.Table.length
  · rw [if_pos hc, hc.1, h]
    exact Or.inr ⟨d, d', rfl, rfl, hd⟩
  · rw [if_neg hc]
    exact Or.inl rfl

theorem tableAgree_append (ks : List String) (x y : XRefTable) (o : Object)
    (hag : TableAgree ks x y) : TableAgree ks (x.append o) (y.append o) := by
  refine ⟨hag.1, ?_, ?_⟩
  · simp only [XRefTable.append, List.length_append, hag.2.1]
  · intro m
    rw [object_append, object_append, hag.2.1]
    by_cases hc : m = x.Table.length
    · rw [if_pos hc, if_pos hc]; exact Or.inl rfl
    · rw [if_neg hc, if_neg hc]; exact hag.2.2 m

theorem Dereference_cases (x : XRefTable) (o : Object) (d : Dict)
    (h : x.Dereference o = some (Object.dict d)) :
    (∃ n g, o = Object.indirectRef n g ∧ x.object n = some (Object.dict d)) ∨
      o = Object.dict d := by
  cases o with
  | indirectRef n g => exact Or.inl ⟨n, g, rfl, h⟩
  | dict e =>
    simp only [XRefTable.Dereference, Option.some.injEq, Object.dict.injEq] at h
    exact Or.inr (by rw [h])
  | name s => simp [XRefTable.Dereference] at h
  | stringLiteral s => simp [XRefTable.Dereference] at h
  | hexLiteral s => simp [XRefTable.Dereference] at h
  | integer i => simp [XRefTable.Dereference] at h
  | float f => simp [XRefTable.Dereference] at h
  | array a => simp [XRefTable.Dereference] at h

theorem Dereference_append (x : XRefTable) (obj o v : Object)
    (h : x.Dereference o = some v) : (x.append obj).Dereference o = some v := by
  cases o with
  | indirectRef n g =>
    simp only [XRefTable.Dereference] at h ⊢
    have hlt := object_eq_some x n v h
    rw [object_append, if_neg (by omega), h]
  | dict e => exact h
  | name s => exact h
  | stringLiteral s => exact h
  | hexLiteral s => exact h
  | integer i => exact h
  | float f => exact h
  | array a => exact h

theorem Catalog_append (x : XRefTable) (obj : Object) (d : Dict)
    (h : x.Catalog = Except.ok d) : (x.append obj).Catalog = Except.ok d := by
  obtain ⟨r, hr, hd⟩ := (catalog_eq_ok x d).1 h
  refine (catalog_eq_ok _ d).2 ⟨r, hr, ?_⟩
  have hlt := object_eq_some x r _ hd
  rw [object_append, if_neg (by omega), hd]

theorem path_append (x : XRefTable) (obj : Object) (rootDict : Dict) (pgRef : Object)
    (pgd : Dict) (k0 : Object) (kids : Array) (p0 : Dict)
    (h : IsWalk x rootDict pgRef pgd k0 kids p0) :
    IsWalk (x.append obj) rootDict pgRef pgd k0 kids p0 := by
  obtain ⟨h1, h2, h3, h4, h5⟩ := h
  exact ⟨Catalog_append x obj _ h1, h2, Dereference_append x obj _ _ h3, h4,
    Dereference_append x obj _ _ h5⟩

theorem setCatalog_eq_rebind (x : XRefTable) (r : Nat) (d : Dict) (h : x.Root = some r) :
    x.setCatalog d = x.rebind r (Object.dict d) := by
  simp only [XRefTable.setCatalog, h]

theorem Catalog_setCatalog (x : XRefTable) (d d' : Dict) (h : x.Catalog = Except.ok d) :
    (x.setCatalog d').Catalog = Except.ok d' := by
  obtain ⟨r, hr, hd⟩ := (catalog_eq_ok x d).1 h
  rw [setCatalog_eq_rebind x r d' hr]
  refine (catalog_eq_ok _ d').2 ⟨r, hr, ?_⟩
  rw [object_rebind, if_pos ⟨rfl, object_eq_some x r _ hd⟩]

theorem tableAgree_setCatalog_self (ks : List String) (x : XRefTable) (d d' : Dict)
    (h : x.Catalog = Except.ok d) (hd : DictAgree ks d d') :
    TableAgree ks x (x.setCatalog d') := by
  obtain ⟨r, hr, hobj⟩ := (catalog_eq_ok x d).1 h
  rw [setCatalog_eq_rebind x r d' hr]
  exact tableAgree_rebind_self ks x r d d' hobj hd

theorem tableAgree_setCatalog (ks : List String) (x y : XRefTable) (d d' : Dict)
    (hag : TableAgree ks x y) (hd : DictAgree ks d d') :
    TableAgree ks (x.setCatalog d) (y.setCatalog d') := by
  cases hr : x.Root with
  | none =>
    have hr' : y.Root = none := by rw [hag.1, hr]
    simp only [XRefTable.setCatalog, hr, hr']
    exact hag
  | some r =>
    have hr' : y.Root = some r := by rw [hag.1, hr]
    rw [setCatalog_eq_rebind x r d hr, setCatalog_eq_rebind y r d' hr']
    exact tableAgree_rebind ks x y r d d' hag hd

theorem storeWalkedNode_frame (x : XRefTable) (rootDict : Dict) (pgRef : Object) (pgd : Dict)
    (k0 : Object) (kids : Array) (p0 : Dict) (v : Object)
    (h : IsWalk x rootDict pgRef pgd k0 kids p0) :
    TableAgree ["Annots", "Kids", "Pages"] x
      (storeWalkedNode x rootDict pgRef pgd k0 kids (Dict.set p0 "Annots" v)) := by
  obtain ⟨h1, h2, h3, h4, h5⟩ := h
  rcases Dereference_cases x k0 p0 h5 with ⟨n, g, hk0, hobj⟩ | hk0
  · subst hk0
    simp only [storeWalkedNode]
    exact tableAgree_rebind_self _ x n p0 _ hobj (dictAgree_set_self _ _ _ _ (by simp))
  · subst hk0
    rcases Dereference_cases x pgRef pgd h3 with ⟨m, g, hpg, hobj⟩ | hpg
    · subst hpg
      simp only [storeWalkedNode]
      exact tableAgree_rebind_self _ x m pgd _ hobj (dictAgree_set_self _ _ _ _ (by simp))
    · subst hpg
      simp only [storeWalkedNode]
      exact tableAgree_setCatalog_self _ x rootDict _ h1 (dictAgree_set_self _ _ _ _ (by simp))

theorem storeWalkedNode_sim (ks : List String) (x y : XRefTable) (hag : TableAgree ks x y)
    (rootDict rootDict' : Dict) (pgRef : Object) (pgd pgd' : Dict) (k0 : Object) (kids : Array)
    (p0 p0' : Dict) (v : Object)
    (hx : IsWalk x rootDict pgRef pgd k0 kids p0)
    (hy : IsWalk y rootDict' pgRef pgd' k0 kids p0')
    (hroot : DictAgree ks rootDict rootDict') (hpgd : DictAgree ks pgd pgd')
    (hp0 : DictAgree ks p0 p0') :
    TableAgree ks (storeWalkedNode x rootDict pgRef pgd k0 kids (Dict.set p0 "Annots" v))
      (storeWalkedNode y rootDict' pgRef pgd' k0 kids (Dict.set p0' "Annots" v)) := by
  obtain ⟨_, _, h3, _, h5⟩ := hx
  obtain ⟨_, _, h3', _, h5'⟩ := hy
  rcases Dereference_cases x k0 p0 h5 with ⟨n, g, hk0, hobj⟩ | hk0
  · subst hk0
    simp only [storeWalkedNode]
    exact tableAgree_rebind ks x y n _ _ hag (dictAgree_set ks _ _ _ _ hp0)
  · subst hk0
    have hpp : p0' = p0 := by
      simp only [XRefTable.Dereference, Option.some.injEq, Object.dict.injEq] at h5'
      exact h5'.symm
    subst hpp
    rcases Dereference_cases x pgRef pgd h3 with ⟨m, g, hpg, hobj⟩ | hpg
    · subst hpg
      simp only [storeWalkedNode]
      exact tableAgree_rebind ks x y m _ _ hag (dictAgree_set ks _ _ _ _ hpgd)
    · subst hpg
      have hqq : pgd' = pgd := by
        simp only [XRefTable.Dereference, Option.some.injEq, Object.dict.injEq] at h3'
        exact h3'.symm
      subst hqq
      simp only [storeWalkedNode]
      exact tableAgree_setCatalog ks x y _ _ hag (dictAgree_set ks _ _ _ _ hroot)

theorem path_store (x : XRefTable) (rootDict : Dict) (pgRef : Object) (pgd : Dict)
    (k0 : Object) (kids : Array) (p0 : Dict) (v : Object)
    (h : IsWalk x rootDict pgRef pgd k0 kids p0) :
    ∃ rootDict' pgRef' pgd' k0' kids' p0',
      IsWalk (storeWalkedNode x rootDict pgRef pgd k0 kids (Dict.set p0 "Annots" v))
        rootDict' pgRef' pgd' k0' kids' p0' ∧
      Dict.Find p0' "Annots" = some v := by
  have hh := h
  obtain ⟨h1, h2, h3, h4, h5⟩ := h
  rcases Dereference_cases x k0 p0 h5 with ⟨n, g, hk0, hobj⟩ | hk0
  · subst hk0
    have hag : TableAgree ["Annots"] x (x.rebind n (Object.dict (Dict.set p0 "Annots" v))) :=
      tableAgree_rebind_self _ x n p0 _ hobj (dictAgree_set_self _ _ _ _ (by simp))
    obtain ⟨rootDict', pgd', p0', hpath, _, _, _⟩ :=
      path_agree ["Annots"] x _ (by decide) (by decide) hag _ _ _ _ _ _ hh
    refine ⟨rootDict', pgRef, pgd', _, kids, p0', by simpa only [storeWalkedNode] using hpath, ?_⟩
    have h5' := hpath.2.2.2.2
    simp only [XRefTable.Dereference] at h5'
    rw [object_rebind, if_pos ⟨rfl, object_eq_some x n _ hobj⟩] at h5'
    simp only [Option.some.injEq, Object.dict.injEq] at h5'
    rw [← h5', find_set_same]
  · subst hk0
    rcases Dereference_cases x pgRef pgd h3 with ⟨m, g, hpg, hobj⟩ | hpg
    · subst hpg
      have hag : TableAgree ["Kids"] x (x.rebind m (Object.dict (Dict.set pgd "Kids"
          (Object.array (Object.dict (Dict.set p0 "Annots" v) :: kids))))) :=
        tableAgree_rebind_self _ x m pgd _ hobj (dictAgree_set_self _ _ _ _ (by simp))
      obtain ⟨rootDict', hc', ha⟩ := Catalog_agree _ x _ hag rootDict h1
      refine ⟨rootDict', Object.indirectRef m g,
        Dict.set pgd "Kids" (Object.array (Object.dict (Dict.set p0 "Annots" v) :: kids)),
        Object.dict (Dict.set p0 "Annots" v), kids,
        Dict.set p0 "Annots" v, ⟨by simpa only [storeWalkedNode] using hc', ?_, ?_, ?_, rfl⟩,
        find_set_same _ _ _⟩
      · rw [ha "Pages" (by decide), h2]
      · simp only [storeWalkedNode, XRefTable.Dereference]
        rw [object_rebind, if_pos ⟨rfl, object_eq_some x m _ hobj⟩]
      · simp only [Dict.ArrayEntry, find_set_same]
    · subst hpg
      refine ⟨Dict.set rootDict "Pages" (Object.dict (Dict.set pgd "Kids"
          (Object.array (Object.dict (Dict.set p0 "Annots" v) :: kids)))),
        Object.dict (Dict.set pgd "Kids"
          (Object.array (Object.dict (Dict.set p0 "Annots" v) :: kids))),
        Dict.set pgd "Kids" (Object.array (Object.dict (Dict.set p0 "Annots" v) :: kids)),
        Object.dict (Dict.set p0 "Annots" v), kids, Dict.set p0 "Annots" v,
        ⟨?_, find_set_same _ _ _, rfl, ?_, rfl⟩, find_set_same _ _ _⟩
      · simp only [storeWalkedNode]
        exact Catalog_setCatalog x rootDict _ h1
      · simp only [Dict.ArrayEntry, find_set_same]

theorem length_append (x : XRefTable) (o : Object) :
    (x.append o).Table.length = x.Table.length + 1 := by
  simp [XRefTable.append]

theorem prepareFrom_ok (ctx ctx' : Context) (sigDict d : Dict)
    (h : prepareFrom ctx sigDict = (ctx', Except.ok d)) :
    ∃ x3 root4,
      linkWalkedNode ((ctx.XRefTable.append (Object.dict sigDict)).append
          (Object.dict (sigFieldDict (Object.indirectRef ctx.XRefTable.Table.length 0))))
        (Object.indirectRef (ctx.XRefTable.Table.length + 1) 0) = some x3 ∧
      (x3.append (Object.dict (formDict
        (Object.indirectRef (ctx.XRefTable.Table.length + 1) 0)))).Catalog = Except.ok root4 ∧
      ctx'.XRefTable = (x3.append (Object.dict (formDict
          (Object.indirectRef (ctx.XRefTable.Table.length + 1) 0)))).setCatalog
        (Dict.Insert root4 "AcroForm" (Object.indirectRef x3.Table.length 0)) ∧
      d = (match ctx'.XRefTable.object ctx.XRefTable.Table.length with
        | some (Object.dict d') => d'
        | _ => sigDict) := by
  simp only [prepareFrom, XRefTable.IndRefForNewObject, length_append] at h
  split at h
  · simp at h
  · rename_i x3 hlink
    split at h
    · simp at h
    · rename_i root4 hcat
      refine ⟨x3, root4, hlink, hcat, ?_⟩
      split at h
      · rename_i d' hobj
        simp only [Prod.mk.injEq, Except.ok.injEq] at h
        obtain ⟨h1, h2⟩ := h
        subst h1
        subst h2
        exact ⟨rfl, by simp only [hobj]⟩
      · rename_i hobj
        simp only [Prod.mk.injEq, Except.ok.injEq] at h
        obtain ⟨h1, h2⟩ := h
        subst h1
        subst h2
        refine ⟨rfl, ?_⟩
        split
        · rename_i d' hd'
          exact absurd hd' (hobj d')
        · rfl

theorem objAgree_dict_left (ks : List String) (d : Dict) (o : Option Object)
    (h : ObjAgree ks (some (Object.dict d)) o) :
    ∃ d', o = some (Object.dict d') ∧ DictAgree ks d d' := by
  rcases h with h | ⟨d1, d1', h1, h2, hd⟩
  · exact ⟨d, h, dictAgree_refl ks d⟩
  · simp only [Option.some.injEq, Object.dict.injEq] at h1
    subst h1
    exact ⟨d1', h2, hd⟩

theorem find_Insert_agree (d : Dict) (key : String) (v : Object) :
    DictAgree [key] d (Dict.Insert d key v) := by
  intro k hk
  exact find_Insert_other d key k v (by simpa using hk)

/-- What a successful run of the shared part of the two preparers leaves behind. -/
theorem prepareFrom_spec (ctx ctx' : Context) (sigDict d root0 : Dict)
    (h : prepareFrom ctx sigDict = (ctx', Except.ok d))
    (hcat : ctx.XRefTable.Catalog = Except.ok root0)
    (hno : Dict.Find root0 "AcroForm" = none) :
    (∃ p0, walkedNode ctx'.XRefTable = some p0 ∧
      Dict.Find p0 "Annots"
        = some (Object.array [Object.indirectRef (ctx.XRefTable.Table.length + 1) 0])) ∧
    (∃ root, ctx'.XRefTable.Catalog = Except.ok root ∧
      Dict.Find root "AcroForm"
        = some (Object.indirectRef (ctx.XRefTable.Table.length + 2) 0)) ∧
    (∃ form, ctx'.XRefTable.object (ctx.XRefTable.Table.length + 2) = some (Object.dict form) ∧
      DictAgree ["AcroForm"]
        (formDict (Object.indirectRef (ctx.XRefTable.Table.length + 1) 0)) form) ∧
    (∃ field, ctx'.XRefTable.object (ctx.XRefTable.Table.length + 1)
        = some (Object.dict field) ∧
      DictAgree ["Annots", "Kids", "Pages", "AcroForm"]
        (sigFieldDict (Object.indirectRef ctx.XRefTable.Table.length 0)) field) ∧
    ctx'.XRefTable.object ctx.XRefTable.Table.length = some (Object.dict d) ∧
    DictAgree ["Annots", "Kids", "Pages", "AcroForm"] sigDict d := by
  obtain ⟨x3, root4, hlink, hcat4, hx5, hd⟩ := prepareFrom_ok ctx ctx' sigDict d h
  obtain ⟨rootDict, pgRef, pgd, k0, kids, p0, hpath2, hx3⟩ := walk_of_linkWalkedNode _ _ _ hlink
  -- the tables of the run
  have hframe := storeWalkedNode_frame _ rootDict pgRef pgd k0 kids p0
    (Object.array [Object.indirectRef (ctx.XRefTable.Table.length + 1) 0]) hpath2
  rw [← Dict.Update, ← hx3] at hframe
  have hlen3 : x3.Table.length = ctx.XRefTable.Table.length + 2 := by
    rw [hframe.2.1, length_append, length_append]
  rw [hlen3] at hx5
  obtain ⟨r3, q3, g3, a3, b3, p3, hpath3, hannots⟩ := path_store _ rootDict pgRef pgd k0 kids p0
    (Object.array [Object.indirectRef (ctx.XRefTable.Table.length + 1) 0]) hpath2
  rw [← Dict.Update, ← hx3] at hpath3
  have hpath4 := path_append x3 (Object.dict (formDict
    (Object.indirectRef (ctx.XRefTable.Table.length + 1) 0))) _ _ _ _ _ _ hpath3
  have hr4 : root4 = r3 := by
    have := hpath4.1
    rw [hcat4] at this
    simpa using this
  subst hr4
  have hag45 : TableAgree ["AcroForm"] (x3.append (Object.dict (formDict
      (Object.indirectRef (ctx.XRefTable.Table.length + 1) 0)))) ctx'.XRefTable := by
    rw [hx5]
    exact tableAgree_setCatalog_self _ _ root4 _ hcat4 (find_Insert_agree _ _ _)
  -- the catalog before the insertion has no form
  have hcat2 : ((ctx.XRefTable.append (Object.dict sigDict)).append
      (Object.dict (sigFieldDict (Object.indirectRef ctx.XRefTable.Table.length 0)))).Catalog
      = Except.ok root0 := Catalog_append _ _ _ (Catalog_append _ _ _ hcat)
  have hroot2 : rootDict = root0 := by
    have := hpath2.1
    rw [hcat2] at this
    simpa using this.symm
  have hno4 : Dict.Find root4 "AcroForm" = none := by
    obtain ⟨r', hr', hagr⟩ := Catalog_agree _ _ _ hframe root0 hcat2
    rw [hpath3.1] at hr'
    simp only [Except.ok.injEq] at hr'
    subst hr'
    rw [hagr "AcroForm" (by decide), hno]
  -- objects below the form dictionary
  have hobj : ∀ m e, m < ctx.XRefTable.Table.length + 2 →
      ((ctx.XRefTable.append (Object.dict sigDict)).append
        (Object.dict (sigFieldDict (Object.indirectRef ctx.XRefTable.Table.length 0)))).object m
        = some (Object.dict e) →
      ∃ e', ctx'.XRefTable.object m = some (Object.dict e') ∧
        DictAgree ["Annots", "Kids", "Pages", "AcroForm"] e e' := by
    intro m e hm he
    have h23 := hframe.2.2 m
    rw [he] at h23
    obtain ⟨e3, he3, ha3⟩ := objAgree_dict_left _ _ _ h23
    have h45 := hag45.2.2 m
    rw [object_append, if_neg (by omega), he3] at h45
    obtain ⟨e5, he5, ha5⟩ := objAgree_dict_left _ _ _ h45
    refine ⟨e5, he5, fun k hk => ?_⟩
    rw [ha5 k (fun hin => hk (by simp at hin; simp [hin])),
      ha3 k (fun hin => hk (by simp at hin; rcases hin with hin | hin | hin <;> simp [hin]))]
  refine ⟨?_, ?_, ?_, ?_, ?_⟩
  · obtain ⟨r5, g5, p5, hpath5, _, _, hap⟩ :=
      path_agree ["AcroForm"] _ _ (by decide) (by decide) hag45 _ _ _ _ _ _ hpath4
    exact ⟨p5, walkedNode_of_walk _ _ _ _ _ _ _ hpath5, by rw [hap "Annots" (by decide), hannots]⟩
  · refine ⟨_, by rw [hx5]; exact Catalog_setCatalog _ root4 _ hcat4, ?_⟩
    exact find_Insert_of_none _ _ _ hno4
  · have h45 := hag45.2.2 (ctx.XRefTable.Table.length + 2)
    rw [object_append, if_pos hlen3.symm] at h45
    exact objAgree_dict_left _ _ _ h45
  · exact hobj (ctx.XRefTable.Table.length + 1) _ (by omega) (by
      rw [object_append, if_pos (by rw [length_append])])
  · have hsig := hobj ctx.XRefTable.Table.length sigDict (by omega) (by
      rw [object_append, if_neg (by rw [length_append]; omega),
        object_append, if_pos rfl])
    obtain ⟨e', he', ha'⟩ := hsig
    rw [he'] at hd
    simp only at hd
    subst hd
    exact ⟨he', ha'⟩

theorem prepareFrom_success (ctx : Context) (sigDict rootDict : Dict) (pgRef : Object)
    (pgd : Dict) (k0 : Object) (kids : Array) (p0 : Dict)
    (h : IsWalk ctx.XRefTable rootDict pgRef pgd k0 kids p0) :
    ∃ ctx' d, prepareFrom ctx sigDict = (ctx', Except.ok d) := by
  have hpath2 := path_append _ (Object.dict (sigFieldDict
    (Object.indirectRef ctx.XRefTable.Table.length 0))) _ _ _ _ _ _
    (path_append _ (Object.dict sigDict) _ _ _ _ _ _ h)
  have hlink := linkWalkedNode_of_walk _
    (Object.indirectRef (ctx.XRefTable.Table.length + 1) 0) _ _ _ _ _ _ hpath2
  obtain ⟨r3, q3, g3, a3, b3, p3, hpath3, _⟩ := path_store _ rootDict pgRef pgd k0 kids p0
    (Object.array [Object.indirectRef (ctx.XRefTable.Table.length + 1) 0]) hpath2
  rw [← Dict.Update] at hpath3
  have hcat4 := Catalog_append _ (Object.dict (formDict
    (Object.indirectRef (ctx.XRefTable.Table.length + 1) 0))) _ hpath3.1
  simp only [prepareFrom, XRefTable.IndRefForNewObject, length_append, hlink, hcat4]
  split
  · exact ⟨_, _, rfl⟩
  · exact ⟨_, _, rfl⟩

theorem tableAgree_append_dict (ks : List String) (x y : XRefTable) (d d' : Dict)
    (hag : TableAgree ks x y) (hd : DictAgree ks d d') :
    TableAgree ks (x.append (Object.dict d)) (y.append (Object.dict d')) := by
  refine ⟨hag.1, ?_, ?_⟩
  · rw [length_append, length_append, hag.2.1]
  · intro m
    rw [object_append, object_append, hag.2.1]
    by_cases hc : m = x.Table.length
    · rw [if_pos hc, if_pos hc]; exact Or.inr ⟨d, d', rfl, rfl, hd⟩
    · rw [if_neg hc, if_neg hc]; exact hag.2.2 m

theorem dictAgree_Insert (ks : List String) (d d' : Dict) (key : String) (v : Object)
    (h : DictAgree ks d d') (hkey : key ∉ ks) :
    DictAgree ks (Dict.Insert d key v) (Dict.Insert d' key v) := by
  have hf := h key hkey
  unfold Dict.Insert
  cases hd : Dict.Find d key with
  | none =>
    rw [hd] at hf
    simp only [hf]
    exact dictAgree_set ks d d' key v h
  | some o =>
    rw [hd] at hf
    simp only [hf]
    exact h

theorem prepareFrom_sim (ks : List String) (ctx ctxA ctxB : Context) (A B dA dB root0 : Dict)
    (hA : prepareFrom ctx A = (ctxA, Except.ok dA))
    (hB : prepareFrom ctx B = (ctxB, Except.ok dB))
    (hcat : ctx.XRefTable.Catalog = Except.ok root0)
    (hno : Dict.Find root0 "AcroForm" = none)
    (hAB : DictAgree ks A B)
    (h2 : "Kids" ∉ ks) (h3 : "Pages" ∉ ks) (h4 : "AcroForm" ∉ ks) :
    DictAgree ks dA dB := by
  have hsA := (prepareFrom_spec ctx ctxA A dA root0 hA hcat hno).2.2.2.2.1
  have hsB := (prepareFrom_spec ctx ctxB B dB root0 hB hcat hno).2.2.2.2.1
  obtain ⟨x3A, root4A, hlinkA, hcat4A, hx5A, _⟩ := prepareFrom_ok ctx ctxA A dA hA
  obtain ⟨x3B, root4B, hlinkB, hcat4B, hx5B, _⟩ := prepareFrom_ok ctx ctxB B dB hB
  obtain ⟨rootDict, pgRef, pgd, k0, kids, p0, hpathA, hx3A⟩ :=
    walk_of_linkWalkedNode _ _ _ hlinkA
  have hag2 : TableAgree ks
      ((ctx.XRefTable.append (Object.dict A)).append
        (Object.dict (sigFieldDict (Object.indirectRef ctx.XRefTable.Table.length 0))))
      ((ctx.XRefTable.append (Object.dict B)).append
        (Object.dict (sigFieldDict (Object.indirectRef ctx.XRefTable.Table.length 0)))) :=
    tableAgree_append ks _ _ _
      (tableAgree_append_dict ks _ _ A B (tableAgree_refl ks _) hAB)
  obtain ⟨rootDict', pgd', p0', hpathB, har, hap, ha0⟩ :=
    path_agree ks _ _ h3 h2 hag2 _ _ _ _ _ _ hpathA
  have hx3B := linkWalkedNode_of_walk _
    (Object.indirectRef (ctx.XRefTable.Table.length + 1) 0) _ _ _ _ _ _ hpathB
  rw [hlinkB] at hx3B
  simp only [Option.some.injEq] at hx3B
  have hag3 : TableAgree ks x3A x3B := by
    rw [hx3A, hx3B]
    exact storeWalkedNode_sim ks _ _ hag2 _ _ _ _ _ _ _ _ _ _ hpathA hpathB har hap ha0
  have hag4 := tableAgree_append ks x3A x3B (Object.dict (formDict
    (Object.indirectRef (ctx.XRefTable.Table.length + 1) 0))) hag3
  obtain ⟨r', hr', harr⟩ := Catalog_agree ks _ _ hag4 root4A hcat4A
  rw [hcat4B] at hr'
  simp only [Except.ok.injEq] at hr'
  subst hr'
  have hag5 : TableAgree ks ctxA.XRefTable ctxB.XRefTable := by
    rw [hx5A, hx5B, hag3.2.1]
    exact tableAgree_setCatalog ks _ _ _ _ hag4 (dictAgree_Insert ks _ _ _ _ harr h4)
  have hobj := hag5.2.2 ctx.XRefTable.Table.length
  rw [hsA] at hobj
  obtain ⟨d', hd', hagd⟩ := objAgree_dict_left ks dA _ hobj
  rw [hsB] at hd'
  simp only [Option.some.injEq, Object.dict.injEq] at hd'
  subst hd'
  exact hagd

theorem PrepareSignature_ok (now : String) (ctx ctx' : Context) (signer : Signer) (d : Dict)
    (h : PrepareSignature now ctx signer = (ctx', Except.ok d)) :
    ∃ root0, ctx.XRefTable.Catalog = Except.ok root0 ∧ Dict.Find root0 "AcroForm" = none ∧
      0 ≤ signer.EstimateSignatureLength ∧
      prepareFrom { ctx with Configuration :=
          { ctx.Configuration with WriteObjectStream := false } }
        (signatureDict now signer.EstimateSignatureLength) = (ctx', Except.ok d) := by
  unfold PrepareSignature at h
  simp only at h
  split at h
  · simp at h
  · rename_i root0 hcat
    split at h
    · simp at h
    · rename_i hno
      split at h
      · simp at h
      · rename_i hN
        exact ⟨root0, hcat, hno, by omega, h⟩

theorem PrepareTimestamp_ok (ctx ctx' : Context) (signer : Signer) (d : Dict)
    (h : PrepareTimestamp ctx signer = (ctx', Except.ok d)) :
    ∃ root0, ctx.XRefTable.Catalog = Except.ok root0 ∧ Dict.Find root0 "AcroForm" = none ∧
      0 ≤ signer.EstimateSignatureLength ∧
      prepareFrom { ctx with Configuration :=
          { ctx.Configuration with WriteObjectStream := false } }
        (timestampDict signer.EstimateSignatureLength) = (ctx', Except.ok d) := by
  unfold PrepareTimestamp at h
  simp only at h
  split at h
  · simp at h
  · rename_i root0 hcat
    split at h
    · simp at h
    · rename_i hno
      split at h
      · simp at h
      · rename_i hN
        exact ⟨root0, hcat, hno, by omega, h⟩

theorem PrepareSignature_of_prepareFrom (now : String) (ctx : Context) (signer : Signer)
    (root0 : Dict) (hcat : ctx.XRefTable.Catalog = Except.ok root0)
    (hno : Dict.Find root0 "AcroForm" = none) (hN : 0 ≤ signer.EstimateSignatureLength) :
    PrepareSignature now ctx signer =
      prepareFrom { ctx with Configuration :=
          { ctx.Configuration with WriteObjectStream := false } }
        (signatureDict now signer.EstimateSignatureLength) := by
  have hN' : ¬ signer.EstimateSignatureLength < 0 := by omega
  simp only [PrepareSignature, hcat, hno, hN', if_false]

theorem PrepareTimestamp_of_prepareFrom (ctx : Context) (signer : Signer)
    (root0 : Dict) (hcat : ctx.XRefTable.Catalog = Except.ok root0)
    (hno : Dict.Find root0 "AcroForm" = none) (hN : 0 ≤ signer.EstimateSignatureLength) :
    PrepareTimestamp ctx signer =
      prepareFrom { ctx with Configuration :=
          { ctx.Configuration with WriteObjectStream := false } }
        (timestampDict signer.EstimateSignatureLength) := by
  have hN' : ¬ signer.EstimateSignatureLength < 0 := by omega
  simp only [PrepareTimestamp, hcat, hno, hN', if_false]

theorem EncodeToString_zeros (n : Nat) :
    EncodeToString (List.replicate n 0) = String.mk (List.replicate (2 * n) '0') := by
  unfold EncodeToString
  congr 1
  induction n with
  | zero => rfl
  | succ n ih =>
    rw [List.replicate_succ, List.flatMap_cons, ih,
      show 2 * (n + 1) = (2 * n + 1) + 1 by ring, List.replicate_succ, List.replicate_succ]
    rfl

/-! ## The file patcher -/

/-- Claim C5, counterexample: patching the two bytes `9 9` at offset 2 of a three byte file
succeeds and leaves a file of four bytes, so a successful `patchFile` can resize. -/
theorem patchFile_resizes :
    smallFS "out.pdf" = some [1, 2, 3] ∧
    (patchFile smallFS "out.pdf" [9, 9] 2).2 = none ∧
    (patchFile smallFS "out.pdf" [9, 9] 2).1 "out.pdf" = some [1, 2, 9, 9] ∧
    ([1, 2, 9, 9] : Bytes).length ≠ ([1, 2, 3] : Bytes).length := by
  decide

/-- Claim C5, amended: for an existing file, an offset `0 ≤ offset` and bytes `bb` that end
inside the file (`offset + len(bb) ≤` the file length), `patchFile` succeeds, the file keeps
its length, holds `bb` at `[offset, offset + len(bb))`, is unchanged at every other position,
and no other file is touched. -/
theorem patchFile_in_place (fs : FS) (fileName : String) (content bb : Bytes) (offset : Int)
    (hfile : fs fileName = some content) (hoff : 0 ≤ offset)
    (hfit : offset + bb.length ≤ content.length) :
    (patchFile fs fileName bb offset).2 = none ∧
    ∃ patched, (patchFile fs fileName bb offset).1 fileName = some patched ∧
      patched.length = content.length ∧
      (patched.drop offset.toNat).take bb.length = bb ∧
      (∀ i, i < offset.toNat ∨ offset.toNat + bb.length ≤ i → patched[i]? = content[i]?) ∧
      ∀ other, other ≠ fileName → (patchFile fs fileName bb offset).1 other = fs other := by
  have hfit2 : offset.toNat + bb.length ≤ content.length := by omega
  have hnot : ¬ offset < 0 := by omega
  refine ⟨by simp [patchFile, hfile, hnot], writeAt content bb offset.toNat, ?_, ?_, ?_, ?_, ?_⟩
  · simp [patchFile, hfile, hnot, FS.store]
  · cases hbb : bb with
    | nil => rfl
    | cons b bs =>
      rw [writeAt_length _ _ _ (by simp), ← hbb]
      omega
  · exact slice_writeAt content bb offset.toNat
  · intro i hi
    rcases hi with hi | hi
    · exact getElem?_writeAt_before content bb offset.toNat i hi (by omega)
    · exact getElem?_writeAt_after content bb offset.toNat i hi
  · intro other hother
    simp [patchFile, hfile, hnot, FS.store, hother]

/-- Witness of `patchFile_in_place`: overwriting the middle byte of `out.pdf`. -/
theorem patchFile_in_place_witness :
    (patchFile smallFS "out.pdf" [9] 1).2 = none ∧
    ∃ patched, (patchFile smallFS "out.pdf" [9] 1).1 "out.pdf" = some patched ∧
      patched.length = ([1, 2, 3] : Bytes).length ∧
      (patched.drop (1 : Int).toNat).take ([9] : Bytes).length = [9] ∧
      (∀ i, i < (1 : Int).toNat ∨ (1 : Int).toNat + ([9] : Bytes).length ≤ i →
        patched[i]? = ([1, 2, 3] : Bytes)[i]?) ∧
      ∀ other, other ≠ "out.pdf" → (patchFile smallFS "out.pdf" [9] 1).1 other = smallFS other :=
  patchFile_in_place smallFS "out.pdf" [1, 2, 3] [9] 1 (by decide) (by decide) (by decide)

/-! ## The byte-range resolver -/

/-- Claim C1: when the Layout Writer has reported the content slot at `c` and the file size
`F`, and the signer estimates `N`, the descriptor `Sign` computes is
`(0, c, c+2+2N, F-(c+2+2N))` as `int` values, `Sign` patches the serialization of exactly
that array at the byte-range offset before it continues, and `len0 + len1 + (2+2N) = F` in
`int` arithmetic.  Whenever `c+2+2N` and `F-(c+2+2N)` are representable the `int` values are
the mathematical ones. -/
theorem sign_byte_range (Write : Writer) (PDFString : Object → Bytes) (ctx : Context)
    (fs : FS) (outFile : String) (sigDict : Dict) (signer : Signer) (ctx1 : Context) (fs1 : FS)
    (hw : Write (signTarget ctx outFile) fs = (ctx1, fs1, none))
    (hc : IsInt64 ctx1.Write.OffsetSigContents) (hF : IsInt64 ctx1.Write.FileSize) :
    signByteRange ctx1.Write signer.EstimateSignatureLength =
      [0, ctx1.Write.OffsetSigContents,
        wrap64 (ctx1.Write.OffsetSigContents + 2 + 2 * signer.EstimateSignatureLength),
        wrap64 (ctx1.Write.FileSize -
          (ctx1.Write.OffsetSigContents + 2 + 2 * signer.EstimateSignatureLength))] ∧
    Sign Write PDFString ctx fs outFile sigDict signer =
      (match patchFile fs1 outFile
          (PDFString (NewIntegerArray
            [0, ctx1.Write.OffsetSigContents,
              wrap64 (ctx1.Write.OffsetSigContents + 2 + 2 * signer.EstimateSignatureLength),
              wrap64 (ctx1.Write.FileSize -
                (ctx1.Write.OffsetSigContents + 2 + 2 * signer.EstimateSignatureLength))]))
          ctx1.Write.OffsetSigByteRange with
        | (fs2, some err) => (ctx1, fs2, some err)
        | (fs2, none) =>
          signContents ctx1 fs2 outFile signer signer.EstimateSignatureLength) ∧
    wrap64 (ctx1.Write.OffsetSigContents +
        wrap64 (ctx1.Write.FileSize -
          (ctx1.Write.OffsetSigContents + 2 + 2 * signer.EstimateSignatureLength)) +
        (2 + 2 * signer.EstimateSignatureLength)) = ctx1.Write.FileSize ∧
    (IsInt64 (ctx1.Write.OffsetSigContents + 2 + 2 * signer.EstimateSignatureLength) →
      IsInt64 (ctx1.Write.FileSize -
        (ctx1.Write.OffsetSigContents + 2 + 2 * signer.EstimateSignatureLength)) →
      signByteRange ctx1.Write signer.EstimateSignatureLength =
        [0, ctx1.Write.OffsetSigContents,
          ctx1.Write.OffsetSigContents + 2 + 2 * signer.EstimateSignatureLength,
          ctx1.Write.FileSize -
            (ctx1.Write.OffsetSigContents + 2 + 2 * signer.EstimateSignatureLength)]) := by
  have hd := signByteRange_eq ctx1.Write signer.EstimateSignatureLength
  rw [wrap64_eq_self _ hc] at hd
  refine ⟨hd, ?_, ?_, ?_⟩
  · simp only [Sign, hw, hd]
  · unfold IsInt64 minInt64 maxInt64 at hF
    unfold wrap64
    omega
  · intro h1 h2
    rw [hd, wrap64_eq_self _ h1, wrap64_eq_self _ h2]

/-- Witness of `sign_byte_range`: the fixture layout `c = 11`, `F = 18` with `N = 2` gives the
descriptor `(0, 11, 17, 1)`. -/
theorem sign_byte_range_witness :
    IsInt64 11 ∧ IsInt64 18 ∧
    signByteRange ⟨".", "out.pdf", 0, 11, 18⟩ 2 = [0, 11, 17, 1] ∧
    (Sign demoWriter demoPDFString demoContext smallFS "out.pdf" [] (constSigner 2 [171, 5])).2.2
      = none :=
  have h := sign_byte_range demoWriter demoPDFString demoContext smallFS "out.pdf" []
    (constSigner 2 [171, 5]) _ _ rfl (by decide) (by decide)
  ⟨by decide, by decide, h.2.2.2 (by decide) (by decide), by rw [h.2.1]; rfl⟩

/-! ## The signing orchestrator -/

/-- Claim C2: when the written file reaches the content offset `c` and the layout leaves
room for the slot (`c + 2 + 2N ≤ F`), a signer output of at most `N` bytes makes `Sign`
succeed, and the two spans `[0, c)` and `[c+2+2N, F)` read from the final file are the
stream that was handed to the signer; reading the final file through the same reader
reproduces that stream. -/
theorem sign_round_trip (Write : Writer) (PDFString : Object → Bytes) (ctx : Context)
    (fs : FS) (outFile : String) (sigDict : Dict) (signer : Signer) (ctx1 : Context) (fs1 : FS)
    (written f1 sig : Bytes)
    (hw : Write (signTarget ctx outFile) fs = (ctx1, fs1, none))
    (hfile : fs1 outFile = some written)
    (hbr : 0 ≤ ctx1.Write.OffsetSigByteRange)
    (hc : 0 ≤ ctx1.Write.OffsetSigContents)
    (hclen : ctx1.Write.OffsetSigContents ≤ written.length)
    (hN : 0 ≤ signer.EstimateSignatureLength)
    (hfit : ctx1.Write.OffsetSigContents + 2 + 2 * signer.EstimateSignatureLength
      ≤ ctx1.Write.FileSize)
    (hF : ctx1.Write.FileSize ≤ maxInt64)
    (hf1 : f1 = writeAt written
      (PDFString (NewIntegerArray (signByteRange ctx1.Write signer.EstimateSignatureLength)))
      ctx1.Write.OffsetSigByteRange.toNat)
    (hsig : signer.Sign (signReader ctx1.Write signer.EstimateSignatureLength f1)
      = Except.ok sig)
    (hm : (sig.length : Int) ≤ signer.EstimateSignatureLength) :
    (Sign Write PDFString ctx fs outFile sigDict signer).2.2 = none ∧
    ∃ f2, (Sign Write PDFString ctx fs outFile sigDict signer).2.1 outFile = some f2 ∧
      f2.take ctx1.Write.OffsetSigContents.toNat ++
        (f2.drop (ctx1.Write.OffsetSigContents + 2
            + 2 * signer.EstimateSignatureLength).toNat).take
          (ctx1.Write.FileSize - (ctx1.Write.OffsetSigContents + 2
            + 2 * signer.EstimateSignatureLength)).toNat
        = (signReader ctx1.Write signer.EstimateSignatureLength f1).data ∧
      signReader ctx1.Write signer.EstimateSignatureLength f2
        = signReader ctx1.Write signer.EstimateSignatureLength f1 := by
  have hc1 : wrap64 (ctx1.Write.OffsetSigContents + 1) = ctx1.Write.OffsetSigContents + 1 := by
    unfold maxInt64 at hF
    unfold wrap64
    omega
  have hrun := sign_run Write PDFString ctx fs outFile sigDict signer ctx1 fs1 written f1 sig
    hw hfile hbr (by omega) hf1 hsig
  rw [hc1] at hrun
  have hlen1 : written.length ≤ f1.length := by
    rw [hf1]; exact length_le_writeAt _ _ _
  have htake : (writeAt f1 (toBytes (EncodeToString sig))
      (ctx1.Write.OffsetSigContents + 1).toNat).take ctx1.Write.OffsetSigContents.toNat
      = f1.take ctx1.Write.OffsetSigContents.toNat :=
    take_writeAt _ _ _ _ (by omega) (by omega)
  have hdrop : (writeAt f1 (toBytes (EncodeToString sig))
      (ctx1.Write.OffsetSigContents + 1).toNat).drop
        (ctx1.Write.OffsetSigContents + 2 + 2 * signer.EstimateSignatureLength).toNat
      = f1.drop (ctx1.Write.OffsetSigContents + 2 + 2 * signer.EstimateSignatureLength).toNat :=
    drop_writeAt _ _ _ _ (by rw [length_toBytes_EncodeToString]; omega)
  have hr1 := signReader_eq ctx1.Write signer.EstimateSignatureLength f1 hc hN hfit hF
  refine ⟨by rw [hrun], writeAt f1 (toBytes (EncodeToString sig))
    (ctx1.Write.OffsetSigContents + 1).toNat, by rw [hrun]; simp [FS.store], ?_, ?_⟩
  · rw [htake, hdrop, hr1]
  · rw [signReader_eq ctx1.Write signer.EstimateSignatureLength _ hc hN hfit hF, htake, hdrop,
      hr1]

/-- Witness of `sign_round_trip`: the fixture file signed with the two bytes `ab 05`. -/
theorem sign_round_trip_witness :
    (Sign demoWriter demoPDFString demoContext smallFS "out.pdf" [] (constSigner 2 [171, 5])).2.2
      = none ∧
    ∃ f2, (Sign demoWriter demoPDFString demoContext smallFS "out.pdf" []
        (constSigner 2 [171, 5])).2.1 "out.pdf" = some f2 ∧
      f2.take 11 ++ (f2.drop 17).take 1
        = (signReader ⟨".", "out.pdf", 0, 11, 18⟩ 2
            [91, 48, 32, 49, 49, 32, 49, 55, 32, 49, 93, 60, 48, 48, 48, 48, 62, 10]).data ∧
      signReader ⟨".", "out.pdf", 0, 11, 18⟩ 2 f2
        = signReader ⟨".", "out.pdf", 0, 11, 18⟩ 2
            [91, 48, 32, 49, 49, 32, 49, 55, 32, 49, 93, 60, 48, 48, 48, 48, 62, 10] :=
  sign_round_trip demoWriter demoPDFString demoContext smallFS "out.pdf" []
    (constSigner 2 [171, 5]) _ _ demoFile _ [171, 5] rfl (by decide) (by decide) (by decide)
    (by decide) (by decide) (by decide) (by decide) (by decide) rfl (by decide)

/-- Claim C10: let the written file have the length `F` the writer reported and hold the
content slot `<`, `2N` characters `0`, `>` at offset `c`, and let the byte-range patch lie
inside the file and outside that slot.  For a signer output `sig` of `m ≤ N` bytes `Sign`
succeeds, the slot then reads `<`, the `2m` lowercase hex characters of `sig`, `2(N-m)`
characters `0`, `>`, and the file still has length `F`. -/
theorem sign_fills_slot (Write : Writer) (PDFString : Object → Bytes) (ctx : Context)
    (fs : FS) (outFile : String) (sigDict : Dict) (signer : Signer) (ctx1 : Context) (fs1 : FS)
    (written f1 sig : Bytes)
    (hw : Write (signTarget ctx outFile) fs = (ctx1, fs1, none))
    (hfile : fs1 outFile = some written)
    (hsize : (written.length : Int) = ctx1.Write.FileSize)
    (hF : ctx1.Write.FileSize ≤ maxInt64)
    (hc : 0 ≤ ctx1.Write.OffsetSigContents)
    (hN : 0 ≤ signer.EstimateSignatureLength)
    (hslot : (written.drop ctx1.Write.OffsetSigContents.toNat).take
        (2 + 2 * signer.EstimateSignatureLength.toNat)
      = 60 :: (List.replicate (2 * signer.EstimateSignatureLength.toNat) 48 ++ [62]))
    (hbr : 0 ≤ ctx1.Write.OffsetSigByteRange)
    (hbrfit : ctx1.Write.OffsetSigByteRange
        + (PDFString (NewIntegerArray
            (signByteRange ctx1.Write signer.EstimateSignatureLength))).length
      ≤ ctx1.Write.FileSize)
    (hdisj : ctx1.Write.OffsetSigByteRange
          + (PDFString (NewIntegerArray
              (signByteRange ctx1.Write signer.EstimateSignatureLength))).length
        ≤ ctx1.Write.OffsetSigContents ∨
      ctx1.Write.OffsetSigContents + 2 + 2 * signer.EstimateSignatureLength
        ≤ ctx1.Write.OffsetSigByteRange)
    (hf1 : f1 = writeAt written
      (PDFString (NewIntegerArray (signByteRange ctx1.Write signer.EstimateSignatureLength)))
      ctx1.Write.OffsetSigByteRange.toNat)
    (hsig : signer.Sign (signReader ctx1.Write signer.EstimateSignatureLength f1)
      = Except.ok sig)
    (hm : (sig.length : Int) ≤ signer.EstimateSignatureLength) :
    (Sign Write PDFString ctx fs outFile sigDict signer).2.2 = none ∧
    ∃ f2, (Sign Write PDFString ctx fs outFile sigDict signer).2.1 outFile = some f2 ∧
      (f2.drop ctx1.Write.OffsetSigContents.toNat).take
          (2 + 2 * signer.EstimateSignatureLength.toNat)
        = 60 :: (toBytes (EncodeToString sig)
            ++ List.replicate (2 * (signer.EstimateSignatureLength.toNat - sig.length)) 48
            ++ [62]) ∧
      (f2.length : Int) = ctx1.Write.FileSize := by
  obtain ⟨_, _, hwfit⟩ := split_at_slot written _ _ _ hslot (by simp; omega) (by omega)
  have hc1 : wrap64 (ctx1.Write.OffsetSigContents + 1) = ctx1.Write.OffsetSigContents + 1 := by
    unfold maxInt64 at hF
    unfold wrap64
    omega
  have hrun := sign_run Write PDFString ctx fs outFile sigDict signer ctx1 fs1 written f1 sig
    hw hfile hbr (by omega) hf1 hsig
  rw [hc1] at hrun
  have hlen1 : f1.length = written.length := by
    rw [hf1]; exact length_writeAt_of_fit _ _ _ (by omega)
  have hslot1 : (f1.drop ctx1.Write.OffsetSigContents.toNat).take
        (2 + 2 * signer.EstimateSignatureLength.toNat)
      = 60 :: (List.replicate (2 * signer.EstimateSignatureLength.toNat) 48 ++ [62]) := by
    rw [hf1, slot_writeAt_disjoint _ _ _ _ _ (by omega) hwfit, hslot]
  have key : ∃ pre post : Bytes,
      f1 = pre ++ 60 :: (List.replicate (2 * signer.EstimateSignatureLength.toNat) 48
        ++ 62 :: post) ∧ pre.length = ctx1.Write.OffsetSigContents.toNat := by
    obtain ⟨hsplit, hpre, _⟩ :=
      split_at_slot f1 _ _ _ hslot1 (by simp; omega) (by omega)
    exact ⟨_, _, by simpa using hsplit, hpre⟩
  obtain ⟨pre, post, hs, hpre⟩ := key
  have hoff : (ctx1.Write.OffsetSigContents + 1).toNat = pre.length + 1 := by
    rw [hpre]; omega
  have hhex : (toBytes (EncodeToString sig)).length
      ≤ 2 * signer.EstimateSignatureLength.toNat := by
    rw [length_toBytes_EncodeToString]; omega
  have hrep : 2 * signer.EstimateSignatureLength.toNat - (toBytes (EncodeToString sig)).length
      = 2 * (signer.EstimateSignatureLength.toNat - sig.length) := by
    rw [length_toBytes_EncodeToString]; omega
  have hf2 : writeAt f1 (toBytes (EncodeToString sig)) (ctx1.Write.OffsetSigContents + 1).toNat
      = pre ++ ((60 :: (toBytes (EncodeToString sig)
          ++ List.replicate (2 * (signer.EstimateSignatureLength.toNat - sig.length)) 48
          ++ [62])) ++ post) := by
    rw [hoff, hs, writeAt_slot _ _ _ _ hhex, hrep]
    simp
  have hl : (60 :: (toBytes (EncodeToString sig)
      ++ List.replicate (2 * (signer.EstimateSignatureLength.toNat - sig.length)) 48
      ++ [62])).length = 2 + 2 * signer.EstimateSignatureLength.toNat := by
    simp only [List.length_cons, List.length_append, List.length_replicate,
      length_toBytes_EncodeToString, List.length_nil]
    omega
  refine ⟨by rw [hrun], writeAt f1 (toBytes (EncodeToString sig))
    (ctx1.Write.OffsetSigContents + 1).toNat, by rw [hrun]; simp [FS.store], ?_, ?_⟩
  · rw [hf2, ← hpre, List.drop_left', ← hl, List.take_left']
    · rfl
    · rfl
  · rw [length_writeAt_of_fit _ _ _ (by rw [length_toBytes_EncodeToString]; omega), hlen1, hsize]

/-- Witness of `sign_fills_slot`: the fixture file signed with the single byte `ab`; the
slot for two bytes then reads `<ab00>`. -/
theorem sign_fills_slot_witness :
    (Sign demoWriter demoPDFString demoContext smallFS "out.pdf" [] (constSigner 2 [171])).2.2
      = none ∧
    ∃ f2, (Sign demoWriter demoPDFString demoContext smallFS "out.pdf" []
        (constSigner 2 [171])).2.1 "out.pdf" = some f2 ∧
      (f2.drop 11).take 6 = [60, 97, 98, 48, 48, 62] ∧
      (f2.length : Int) = 18 :=
  sign_fills_slot demoWriter demoPDFString demoContext smallFS "out.pdf" []
    (constSigner 2 [171]) _ _ demoFile _ [171] rfl (by decide) (by decide) (by decide)
    (by decide) (by decide) (by decide) (by decide) (by decide) (by decide) rfl rfl (by decide)

/-- Claim C3, counterexample: the signer estimates 2 bytes and returns the 3 bytes
`ab 05 07`.  `Sign` returns no error; the content slot of the fixture is `[11, 17)`, and the
byte at offset 17, a line feed in the written file, is the hex digit `7` afterwards. -/
theorem sign_overlong_overwrites :
    (constSigner 2 [171, 5, 7]).EstimateSignatureLength = 2 ∧
    (Sign demoWriter demoPDFString demoContext smallFS "out.pdf" []
      (constSigner 2 [171, 5, 7])).2.2 = none ∧
    (Sign demoWriter demoPDFString demoContext smallFS "out.pdf" []
      (constSigner 2 [171, 5, 7])).2.1 "out.pdf"
      = some [91, 48, 32, 49, 49, 32, 49, 55, 32, 49, 93, 60, 97, 98, 48, 53, 48, 55] ∧
    demoFile[17]? = some 10 := by
  decide

/-- Claim C3, amended: `Sign` has no guard on the length of the signer output.  When the
output is longer than the estimate `K` (and the written file exists and reaches past the
content offset `c`), `Sign` returns no error and writes all `2·len(sig)` hex characters at
`[c+1, c+1+2·len(sig))`; the byte at `c+2+2K`, the first one after the reserved slot, is
overwritten by a hex character, and only the bytes outside `[c+1, c+1+2·len(sig))` are left
as they were before the content patch. -/
theorem sign_overlong_unguarded (Write : Writer) (PDFString : Object → Bytes) (ctx : Context)
    (fs : FS) (outFile : String) (sigDict : Dict) (signer : Signer) (ctx1 : Context) (fs1 : FS)
    (written f1 sig : Bytes)
    (hw : Write (signTarget ctx outFile) fs = (ctx1, fs1, none))
    (hfile : fs1 outFile = some written)
    (hbr : 0 ≤ ctx1.Write.OffsetSigByteRange)
    (hc : 0 ≤ ctx1.Write.OffsetSigContents)
    (hclen : ctx1.Write.OffsetSigContents < written.length)
    (hcmax : ctx1.Write.OffsetSigContents < maxInt64)
    (hN : 0 ≤ signer.EstimateSignatureLength)
    (hf1 : f1 = writeAt written
      (PDFString (NewIntegerArray (signByteRange ctx1.Write signer.EstimateSignatureLength)))
      ctx1.Write.OffsetSigByteRange.toNat)
    (hsig : signer.Sign (signReader ctx1.Write signer.EstimateSignatureLength f1)
      = Except.ok sig)
    (hover : signer.EstimateSignatureLength < (sig.length : Int)) :
    (Sign Write PDFString ctx fs outFile sigDict signer).2.2 = none ∧
    ∃ f2, (Sign Write PDFString ctx fs outFile sigDict signer).2.1 outFile = some f2 ∧
      (f2.drop (ctx1.Write.OffsetSigContents + 1).toNat).take (2 * sig.length)
        = toBytes (EncodeToString sig) ∧
      f2[(ctx1.Write.OffsetSigContents + 2 + 2 * signer.EstimateSignatureLength).toNat]?
        = (toBytes (EncodeToString sig))[2 * signer.EstimateSignatureLength.toNat + 1]? ∧
      ∀ i, i < (ctx1.Write.OffsetSigContents + 1).toNat ∨
          (ctx1.Write.OffsetSigContents + 1).toNat + 2 * sig.length ≤ i → f2[i]? = f1[i]? := by
  have hc1 : wrap64 (ctx1.Write.OffsetSigContents + 1) = ctx1.Write.OffsetSigContents + 1 := by
    unfold maxInt64 at hcmax
    unfold wrap64
    omega
  have hrun := sign_run Write PDFString ctx fs outFile sigDict signer ctx1 fs1 written f1 sig
    hw hfile hbr (by omega) hf1 hsig
  rw [hc1] at hrun
  have hlen1 : written.length ≤ f1.length := by
    rw [hf1]; exact length_le_writeAt _ _ _
  have hslice := slice_writeAt f1 (toBytes (EncodeToString sig))
    (ctx1.Write.OffsetSigContents + 1).toNat
  rw [length_toBytes_EncodeToString] at hslice
  refine ⟨by rw [hrun], writeAt f1 (toBytes (EncodeToString sig))
    (ctx1.Write.OffsetSigContents + 1).toNat, by rw [hrun]; simp [FS.store], hslice, ?_, ?_⟩
  · have h := congrArg (fun l => l[2 * signer.EstimateSignatureLength.toNat + 1]?) hslice
    simp only at h
    rw [List.getElem?_take, if_pos (by omega), List.getElem?_drop] at h
    rw [← h]
    congr 1
    omega
  · intro i hi
    rcases hi with hi | hi
    · exact getElem?_writeAt_before _ _ _ _ hi (by omega)
    · exact getElem?_writeAt_after _ _ _ _ (by rw [length_toBytes_EncodeToString]; exact hi)

/-- Witness of `sign_overlong_unguarded`: the fixture with estimate 2 and the three byte
output `ab 05 07`. -/
theorem sign_overlong_unguarded_witness :
    (Sign demoWriter demoPDFString demoContext smallFS "out.pdf" []
      (constSigner 2 [171, 5, 7])).2.2 = none ∧
    ∃ f2, (Sign demoWriter demoPDFString demoContext smallFS "out.pdf" []
        (constSigner 2 [171, 5, 7])).2.1 "out.pdf" = some f2 ∧
      (f2.drop 12).take 6 = [97, 98, 48, 53, 48, 55] ∧
      f2[17]? = some 55 ∧
      ∀ i, i < 12 ∨ 12 + 6 ≤ i → f2[i]? =
        ([91, 48, 32, 49, 49, 32, 49, 55, 32, 49, 93, 60, 48, 48, 48, 48, 62, 10] : Bytes)[i]? :=
  sign_overlong_unguarded demoWriter demoPDFString demoContext smallFS "out.pdf" []
    (constSigner 2 [171, 5, 7]) _ _ demoFile _ [171, 5, 7] rfl (by decide) (by decide)
    (by decide) (by decide) (by decide) (by decide) rfl rfl (by decide)

/-! ## The placeholder preparer -/

/-- Claim C4: when the catalog already has an `AcroForm` entry, `PrepareSignature` and
`PrepareTimestamp` return `ErrHasAcroForm` and no Signature Record, and leave the cross
reference table (catalog, pages, every object) and the Write Layout exactly as they were. -/
theorem prepare_rejects_existing_form (now : String) (ctx : Context) (signer : Signer)
    (rootDict : Dict) (v : Object)
    (hcat : ctx.XRefTable.Catalog = Except.ok rootDict)
    (hform : Dict.Find rootDict "AcroForm" = some v) :
    (PrepareSignature now ctx signer).2 = Except.error ErrHasAcroForm ∧
    (PrepareSignature now ctx signer).1.XRefTable = ctx.XRefTable ∧
    (PrepareSignature now ctx signer).1.Write = ctx.Write ∧
    (PrepareTimestamp ctx signer).2 = Except.error ErrHasAcroForm ∧
    (PrepareTimestamp ctx signer).1.XRefTable = ctx.XRefTable ∧
    (PrepareTimestamp ctx signer).1.Write = ctx.Write := by
  simp [PrepareSignature, PrepareTimestamp, hcat, hform]

/-- Witness of `prepare_rejects_existing_form`: the fixture document with an `AcroForm`. -/
theorem prepare_rejects_existing_form_witness :
    (PrepareSignature "D:20200629" signedContext (constSigner 2 [])).2
      = Except.error ErrHasAcroForm ∧
    (PrepareSignature "D:20200629" signedContext (constSigner 2 [])).1.XRefTable
      = signedContext.XRefTable ∧
    (PrepareSignature "D:20200629" signedContext (constSigner 2 [])).1.Write
      = signedContext.Write ∧
    (PrepareTimestamp signedContext (constSigner 2 [])).2 = Except.error ErrHasAcroForm ∧
    (PrepareTimestamp signedContext (constSigner 2 [])).1.XRefTable
      = signedContext.XRefTable ∧
    (PrepareTimestamp signedContext (constSigner 2 [])).1.Write = signedContext.Write :=
  prepare_rejects_existing_form "D:20200629" signedContext (constSigner 2 []) _
    (Object.indirectRef 4 0) rfl rfl

/-- Claim C6: for a signer with estimate `N ≥ 0`, every Signature Record returned by
`PrepareSignature` or `PrepareTimestamp` has a `Contents` entry that is a hex literal of
exactly `2N` characters `0` and a `ByteRange` entry that is the empty array; and both
methods do return a record when the catalog has no `AcroForm` and the walk catalog,
`Pages`, `Kids[0]` of lines 184 to 187 succeeds. -/
theorem prepare_placeholder (now : String) (ctx : Context) (signer : Signer)
    (hN : 0 ≤ signer.EstimateSignatureLength) :
    (∀ ctx' d, PrepareSignature now ctx signer = (ctx', Except.ok d) →
      Dict.Find d "Contents" = some (Object.hexLiteral
        (String.mk (List.replicate (2 * signer.EstimateSignatureLength.toNat) '0'))) ∧
      Dict.Find d "ByteRange" = some (Object.array [])) ∧
    (∀ ctx' d, PrepareTimestamp ctx signer = (ctx', Except.ok d) →
      Dict.Find d "Contents" = some (Object.hexLiteral
        (String.mk (List.replicate (2 * signer.EstimateSignatureLength.toNat) '0'))) ∧
      Dict.Find d "ByteRange" = some (Object.array [])) ∧
    (∀ rootDict pgRef pgd k0 kids p0,
      IsWalk ctx.XRefTable rootDict pgRef pgd k0 kids p0 →
      Dict.Find rootDict "AcroForm" = none →
      (∃ ctx' d, PrepareSignature now ctx signer = (ctx', Except.ok d)) ∧
      (∃ ctx' d, PrepareTimestamp ctx signer = (ctx', Except.ok d))) := by
  refine ⟨?_, ?_, ?_⟩
  · intro ctx' d h
    obtain ⟨root0, hcat, hno, _, hp⟩ := PrepareSignature_ok now ctx ctx' signer d h
    have hag := (prepareFrom_spec _ ctx' _ d root0 hp hcat hno).2.2.2.2.2
    rw [hag "Contents" (by decide), hag "ByteRange" (by decide)]
    simp [signatureDict, Dict.Find, NewHexLiteral, EncodeToString_zeros]
  · intro ctx' d h
    obtain ⟨root0, hcat, hno, _, hp⟩ := PrepareTimestamp_ok ctx ctx' signer d h
    have hag := (prepareFrom_spec _ ctx' _ d root0 hp hcat hno).2.2.2.2.2
    rw [hag "Contents" (by decide), hag "ByteRange" (by decide)]
    simp [timestampDict, Dict.Find, NewHexLiteral, EncodeToString_zeros]
  · intro rootDict pgRef pgd k0 kids p0 hpath hno
    rw [PrepareSignature_of_prepareFrom now ctx signer rootDict hpath.1 hno hN,
      PrepareTimestamp_of_prepareFrom ctx signer rootDict hpath.1 hno hN]
    exact ⟨prepareFrom_success _ _ rootDict pgRef pgd k0 kids p0 hpath,
      prepareFrom_success _ _ rootDict pgRef pgd k0 kids p0 hpath⟩

/-- Witness of `prepare_placeholder`: on the fixture document both methods return a record
whose `Contents` is `<0000>` for the estimate 2. -/
theorem prepare_placeholder_witness :
    (0 : Int) ≤ (constSigner 2 []).EstimateSignatureLength ∧
    (∃ ctx' d, PrepareSignature "D:20200629" demoContext (constSigner 2 [])
        = (ctx', Except.ok d) ∧
      Dict.Find d "Contents" = some (Object.hexLiteral "0000") ∧
      Dict.Find d "ByteRange" = some (Object.array [])) ∧
    (∃ ctx' d, PrepareTimestamp demoContext (constSigner 2 []) = (ctx', Except.ok d) ∧
      Dict.Find d "Contents" = some (Object.hexLiteral "0000") ∧
      Dict.Find d "ByteRange" = some (Object.array [])) := by
  have h := prepare_placeholder "D:20200629" demoContext (constSigner 2 []) (by decide)
  obtain ⟨⟨c1, d1, h1⟩, ⟨c2, d2, h2⟩⟩ := h.2.2 _ (Object.indirectRef 2 0) _
    (Object.indirectRef 3 0) [] _ ⟨rfl, rfl, rfl, rfl, rfl⟩ rfl
  exact ⟨by decide, ⟨c1, d1, h1, h.1 c1 d1 h1⟩, ⟨c2, d2, h2, h.2.1 c2 d2 h2⟩⟩

theorem signatureDict_agree_timestampDict (now : String) (N : Int) :
    DictAgree ["M", "Type", "SubFilter"] (signatureDict now N) (timestampDict N) := by
  intro k hk
  simp only [List.mem_cons, List.mem_singleton, List.not_mem_nil, or_false, not_or] at hk
  obtain ⟨h1, h2, h3⟩ := hk
  have h1' : ¬ "M" = k := fun e => h1 e.symm
  have h2' : ¬ "Type" = k := fun e => h2 e.symm
  have h3' : ¬ "SubFilter" = k := fun e => h3 e.symm
  simp only [signatureDict, timestampDict, Dict.Find, h1', h2', h3', if_false]

/-- Claim C7: every Signature Record returned by `PrepareTimestamp` has no entry `M`, every
one returned by `PrepareSignature` has the entry `M` holding the signing time; the two
records of one context and signer have `Type` `DocTimeStamp` and `Sig`, `SubFilter`
`ETSI.RFC3161` and `adbe.pkcs7.detached`, and the same entry under every key other than
`M`, `Type` and `SubFilter`. -/
theorem prepare_signing_time (now : String) (ctx : Context) (signer : Signer) :
    (∀ ctxT dT, PrepareTimestamp ctx signer = (ctxT, Except.ok dT) →
      Dict.Find dT "M" = none ∧
      Dict.Find dT "Type" = some (Object.name "DocTimeStamp") ∧
      Dict.Find dT "SubFilter" = some (Object.name "ETSI.RFC3161")) ∧
    (∀ ctxS dS, PrepareSignature now ctx signer = (ctxS, Except.ok dS) →
      Dict.Find dS "M" = some (Object.stringLiteral now) ∧
      Dict.Find dS "Type" = some (Object.name "Sig") ∧
      Dict.Find dS "SubFilter" = some (Object.name "adbe.pkcs7.detached")) ∧
    (∀ ctxS dS ctxT dT, PrepareSignature now ctx signer = (ctxS, Except.ok dS) →
      PrepareTimestamp ctx signer = (ctxT, Except.ok dT) →
      ∀ k, k ∉ ["M", "Type", "SubFilter"] → Dict.Find dS k = Dict.Find dT k) := by
  refine ⟨?_, ?_, ?_⟩
  · intro ctxT dT h
    obtain ⟨root0, hcat, hno, _, hp⟩ := PrepareTimestamp_ok ctx ctxT signer dT h
    have hag := (prepareFrom_spec _ ctxT _ dT root0 hp hcat hno).2.2.2.2.2
    rw [hag "M" (by decide), hag "Type" (by decide), hag "SubFilter" (by decide)]
    simp [timestampDict, Dict.Find]
  · intro ctxS dS h
    obtain ⟨root0, hcat, hno, _, hp⟩ := PrepareSignature_ok now ctx ctxS signer dS h
    have hag := (prepareFrom_spec _ ctxS _ dS root0 hp hcat hno).2.2.2.2.2
    rw [hag "M" (by decide), hag "Type" (by decide), hag "SubFilter" (by decide)]
    simp [signatureDict, Dict.Find]
  · intro ctxS dS ctxT dT hS hT k hk
    obtain ⟨root0, hcat, hno, _, hpS⟩ := PrepareSignature_ok now ctx ctxS signer dS hS
    obtain ⟨_, _, _, _, hpT⟩ := PrepareTimestamp_ok ctx ctxT signer dT hT
    have hsim := prepareFrom_sim ["M", "Type", "SubFilter"] _ ctxS ctxT _ _ dS dT root0
      hpS hpT hcat hno (signatureDict_agree_timestampDict now _)
      (by decide) (by decide) (by decide)
    exact (hsim k hk).symm

/-- Witness of `prepare_signing_time`: on the fixture document both methods succeed; the
timestamp record has no `M`, the signature record has it, and their `Filter` entries are
equal. -/
theorem prepare_signing_time_witness :
    (∃ ctxT dT, PrepareTimestamp demoContext (constSigner 2 []) = (ctxT, Except.ok dT) ∧
      Dict.Find dT "M" = none) ∧
    (∃ ctxS dS, PrepareSignature "D:20200629" demoContext (constSigner 2 [])
        = (ctxS, Except.ok dS) ∧
      Dict.Find dS "M" = some (Object.stringLiteral "D:20200629")) := by
  have h := prepare_signing_time "D:20200629" demoContext (constSigner 2 [])
  exact ⟨⟨_, _, rfl, (h.1 _ _ rfl).1⟩, ⟨_, _, rfl, (h.2.1 _ _ rfl).1⟩⟩

/-- What every successful `PrepareSignature` or `PrepareTimestamp` leaves behind, `n` being
the number of objects before the call: the dictionary the walk catalog, `Pages`, `Kids[0]`
reaches has `Annots` replaced by the one-element array holding the reference to the new
field (object `n+1`), that object is the field with `FT` `Sig` and `V` the reference to the
Signature Record (object `n`), and the catalog's `AcroForm` refers to the form dictionary
(object `n+2`) whose `Fields` array is that same one-element array. -/
theorem prepare_links_walked_node (now : String) (ctx : Context) (signer : Signer) :
    (∀ ctx' d, PrepareSignature now ctx signer = (ctx', Except.ok d) →
      (∃ p0, walkedNode ctx'.XRefTable = some p0 ∧
        Dict.Find p0 "Annots"
          = some (Object.array [Object.indirectRef (ctx.XRefTable.Table.length + 1) 0])) ∧
      (∃ field, ctx'.XRefTable.object (ctx.XRefTable.Table.length + 1)
          = some (Object.dict field) ∧
        Dict.Find field "FT" = some (Object.name "Sig") ∧
        Dict.Find field "V" = some (Object.indirectRef ctx.XRefTable.Table.length 0)) ∧
      (∃ root form, ctx'.XRefTable.Catalog = Except.ok root ∧
        Dict.Find root "AcroForm"
          = some (Object.indirectRef (ctx.XRefTable.Table.length + 2) 0) ∧
        ctx'.XRefTable.object (ctx.XRefTable.Table.length + 2) = some (Object.dict form) ∧
        Dict.Find form "Fields"
          = some (Object.array [Object.indirectRef (ctx.XRefTable.Table.length + 1) 0]))) ∧
    (∀ ctx' d, PrepareTimestamp ctx signer = (ctx', Except.ok d) →
      (∃ p0, walkedNode ctx'.XRefTable = some p0 ∧
        Dict.Find p0 "Annots"
          = some (Object.array [Object.indirectRef (ctx.XRefTable.Table.length + 1) 0])) ∧
      (∃ field, ctx'.XRefTable.object (ctx.XRefTable.Table.length + 1)
          = some (Object.dict field) ∧
        Dict.Find field "FT" = some (Object.name "Sig") ∧
        Dict.Find field "V" = some (Object.indirectRef ctx.XRefTable.Table.length 0)) ∧
      (∃ root form, ctx'.XRefTable.Catalog = Except.ok root ∧
        Dict.Find root "AcroForm"
          = some (Object.indirectRef (ctx.XRefTable.Table.length + 2) 0) ∧
        ctx'.XRefTable.object (ctx.XRefTable.Table.length + 2) = some (Object.dict form) ∧
        Dict.Find form "Fields"
          = some (Object.array [Object.indirectRef (ctx.XRefTable.Table.length + 1) 0]))) := by
  have key : ∀ (c ctx' : Context) (sigDict d root0 : Dict),
      prepareFrom c sigDict = (ctx', Except.ok d) → c.XRefTable.Catalog = Except.ok root0 →
      Dict.Find root0 "AcroForm" = none →
      (∃ p0, walkedNode ctx'.XRefTable = some p0 ∧
        Dict.Find p0 "Annots"
          = some (Object.array [Object.indirectRef (c.XRefTable.Table.length + 1) 0])) ∧
      (∃ field, ctx'.XRefTable.object (c.XRefTable.Table.length + 1)
          = some (Object.dict field) ∧
        Dict.Find field "FT" = some (Object.name "Sig") ∧
        Dict.Find field "V" = some (Object.indirectRef c.XRefTable.Table.length 0)) ∧
      (∃ root form, ctx'.XRefTable.Catalog = Except.ok root ∧
        Dict.Find root "AcroForm"
          = some (Object.indirectRef (c.XRefTable.Table.length + 2) 0) ∧
        ctx'.XRefTable.object (c.XRefTable.Table.length + 2) = some (Object.dict form) ∧
        Dict.Find form "Fields"
          = some (Object.array [Object.indirectRef (c.XRefTable.Table.length + 1) 0])) := by
    intro c ctx' sigDict d root0 hp hcat hno
    obtain ⟨hpage, ⟨root, hroot, hform⟩, ⟨form, hfobj, hfag⟩, ⟨field, hfield, hag⟩, _, _⟩ :=
      prepareFrom_spec c ctx' sigDict d root0 hp hcat hno
    refine ⟨hpage, ⟨field, hfield, ?_, ?_⟩, root, form, hroot, hform, hfobj, ?_⟩
    · rw [hag "FT" (by decide)]; simp [sigFieldDict, Dict.Find]
    · rw [hag "V" (by decide)]; simp [sigFieldDict, Dict.Find]
    · rw [hfag "Fields" (by decide)]; simp [formDict, Dict.Find]
  refine ⟨?_, ?_⟩
  · intro ctx' d h
    obtain ⟨root0, hcat, hno, _, hp⟩ := PrepareSignature_ok now ctx ctx' signer d h
    exact key { ctx with Configuration :=
      { ctx.Configuration with WriteObjectStream := false } } ctx' _ d root0 hp hcat hno
  · intro ctx' d h
    obtain ⟨root0, hcat, hno, _, hp⟩ := PrepareTimestamp_ok ctx ctx' signer d h
    exact key { ctx with Configuration :=
      { ctx.Configuration with WriteObjectStream := false } } ctx' _ d root0 hp hcat hno

/-- On the flat fixture document the dictionary the walk reaches is the first page; it holds
the annotation reference `4 0 R` before the call and the array `[6 0 R]`, the new field
alone, after a successful `PrepareSignature` or `PrepareTimestamp`. -/
theorem prepare_replaces_annotations :
    (∃ p0, walkedNode demoContext.XRefTable = some p0 ∧
      firstPage demoContext.XRefTable = some p0 ∧
      Dict.Find p0 "Annots" = some (Object.array [Object.indirectRef 4 0])) ∧
    (∃ d, (PrepareSignature "D:20200629" demoContext (constSigner 2 [])).2 = Except.ok d) ∧
    (∃ p0, firstPage (PrepareSignature "D:20200629" demoContext (constSigner 2 [])).1.XRefTable
        = some p0 ∧
      Dict.Find p0 "Annots" = some (Object.array [Object.indirectRef 6 0])) ∧
    (∃ d, (PrepareTimestamp demoContext (constSigner 2 [])).2 = Except.ok d) ∧
    (∃ p0, firstPage (PrepareTimestamp demoContext (constSigner 2 [])).1.XRefTable = some p0 ∧
      Dict.Find p0 "Annots" = some (Object.array [Object.indirectRef 6 0])) :=
  ⟨⟨_, rfl, rfl, rfl⟩, ⟨_, rfl⟩, ⟨_, rfl, rfl⟩, ⟨_, rfl⟩, ⟨_, rfl, rfl⟩⟩

/-- Claim C9, the code at the failing input: in the fixture document with a nested page tree
the first page is object 4 and holds the annotation reference `6 0 R`.  `PrepareSignature`
and `PrepareTimestamp` succeed and create the field as object 8, but they set `Annots` to
`[8 0 R]` on object 3, the intermediate `Pages` node that is `Kids[0]` of the root of the
page tree.  The first page is still object 4 afterwards, its `Annots` array is still
`[6 0 R]` and does not contain the reference to the new field. -/
theorem prepare_misses_first_page :
    (∃ p, firstPage nestedContext.XRefTable = some p ∧
      nestedContext.XRefTable.object 4 = some (Object.dict p) ∧
      Dict.Find p "Type" = some (Object.name "Page") ∧
      Dict.Find p "Annots" = some (Object.array [Object.indirectRef 6 0])) ∧
    (∃ d, (PrepareSignature "D:20200629" nestedContext (constSigner 2 [])).2 = Except.ok d) ∧
    (∃ field, (PrepareSignature "D:20200629" nestedContext (constSigner 2 [])).1.XRefTable.object 8
        = some (Object.dict field) ∧
      Dict.Find field "FT" = some (Object.name "Sig")) ∧
    (∃ q, (PrepareSignature "D:20200629" nestedContext (constSigner 2 [])).1.XRefTable.object 3
        = some (Object.dict q) ∧
      Dict.Find q "Type" = some (Object.name "Pages") ∧
      Dict.Find q "Annots" = some (Object.array [Object.indirectRef 8 0])) ∧
    (∃ p, firstPage (PrepareSignature "D:20200629" nestedContext (constSigner 2 [])).1.XRefTable
        = some p ∧
      (PrepareSignature "D:20200629" nestedContext (constSigner 2 [])).1.XRefTable.object 4
        = some (Object.dict p) ∧
      Dict.Find p "Annots" = some (Object.array [Object.indirectRef 6 0])) ∧
    (∃ d, (PrepareTimestamp nestedContext (constSigner 2 [])).2 = Except.ok d) ∧
    (∃ q, (PrepareTimestamp nestedContext (constSigner 2 [])).1.XRefTable.object 3
        = some (Object.dict q) ∧
      Dict.Find q "Type" = some (Object.name "Pages") ∧
      Dict.Find q "Annots" = some (Object.array [Object.indirectRef 8 0])) ∧
    (∃ p, firstPage (PrepareTimestamp nestedContext (constSigner 2 [])).1.XRefTable = some p ∧
      (PrepareTimestamp nestedContext (constSigner 2 [])).1.XRefTable.object 4
        = some (Object.dict p) ∧
      Dict.Find p "Annots" = some (Object.array [Object.indirectRef 6 0])) ∧
    Object.indirectRef 8 0 ∉ [Object.indirectRef 6 0] :=
  ⟨⟨_, rfl, rfl, rfl, rfl⟩, ⟨_, rfl⟩, ⟨_, rfl, rfl⟩, ⟨_, rfl, rfl, rfl⟩, ⟨_, rfl, rfl, rfl⟩,
    ⟨_, rfl⟩, ⟨_, rfl, rfl, rfl⟩, ⟨_, rfl, rfl, rfl⟩, by simp⟩

/-! ## Preparation followed by signing -/

/-- Claim C8, counterexample: the record is prepared with a signer that estimates 2 bytes,
so its `Contents` placeholder `<0000>` takes 6 bytes, which is the slot of the written
fixture file.  `Sign` is then given a signer that estimates 4 bytes: it does not look
at the record, the descriptor is `(0, 11, 21, -3)`, the excluded span has 10 bytes,
`len1` is negative and `start1` lies behind the file size 18; `Sign` still succeeds. -/
theorem sign_ignores_record :
    ∃ ctx' d, PrepareSignature "D:20200629" demoContext (constSigner 2 [])
        = (ctx', Except.ok d) ∧
      Dict.Find d "Contents" = some (Object.hexLiteral "0000") ∧
      (demoWriter (signTarget ctx' "out.pdf") smallFS).1.Write.OffsetSigContents = 11 ∧
      (demoWriter (signTarget ctx' "out.pdf") smallFS).1.Write.FileSize = 18 ∧
      signByteRange (demoWriter (signTarget ctx' "out.pdf") smallFS).1.Write
        (constSigner 4 [171]).EstimateSignatureLength = [0, 11, 21, -3] ∧
      (21 : Int) - 11 ≠ ("0000".length : Int) + 2 ∧
      (Sign demoWriter demoPDFString ctx' smallFS "out.pdf" d (constSigner 4 [171])).2.2
        = none :=
  ⟨_, _, rfl, rfl, rfl, rfl, by decide, by decide, by decide⟩

/-- Claim C8, amended: let the record `d` come from `PrepareSignature` or `PrepareTimestamp`
with a signer of estimate `N`, let `Sign` be called with a signer of the same estimate, and
let the writer have placed the serialized `Contents` placeholder of `d` (its hex characters
and two delimiters) at `c ≥ 0` inside the file of size `F`.  Then the descriptor `Sign`
computes and patches is `(0, c, c+L, F-(c+L))` with `L` the serialized length of that
placeholder: the excluded span `[c, c+L)` is exactly the content slot, `len0 ≥ 0`,
`len1 ≥ 0`, `start1 ≤ F`, and the two hashed spans are disjoint and end at `F`. -/
theorem sign_excludes_slot (Write : Writer) (PDFString : Object → Bytes) (now : String)
    (ctx ctxP : Context) (signerP signerS : Signer) (d : Dict) (fs : FS) (outFile : String)
    (ctx1 : Context) (fs1 : FS)
    (hprep : PrepareSignature now ctx signerP = (ctxP, Except.ok d) ∨
      PrepareTimestamp ctx signerP = (ctxP, Except.ok d))
    (hsame : signerS.EstimateSignatureLength = signerP.EstimateSignatureLength)
    (hw : Write (signTarget ctxP outFile) fs = (ctx1, fs1, none))
    (hc : 0 ≤ ctx1.Write.OffsetSigContents)
    (hfit : ∀ s, Dict.Find d "Contents" = some (Object.hexLiteral s) →
      ctx1.Write.OffsetSigContents + ((s.length : Int) + 2) ≤ ctx1.Write.FileSize)
    (hF : ctx1.Write.FileSize ≤ maxInt64) :
    ∃ s, Dict.Find d "Contents" = some (Object.hexLiteral s) ∧
      signByteRange ctx1.Write signerS.EstimateSignatureLength =
        [0, ctx1.Write.OffsetSigContents,
          ctx1.Write.OffsetSigContents + ((s.length : Int) + 2),
          ctx1.Write.FileSize - (ctx1.Write.OffsetSigContents + ((s.length : Int) + 2))] ∧
      Sign Write PDFString ctxP fs outFile d signerS =
        (match patchFile fs1 outFile
            (PDFString (NewIntegerArray
              [0, ctx1.Write.OffsetSigContents,
                ctx1.Write.OffsetSigContents + ((s.length : Int) + 2),
                ctx1.Write.FileSize
                  - (ctx1.Write.OffsetSigContents + ((s.length : Int) + 2))]))
            ctx1.Write.OffsetSigByteRange with
          | (fs2, some err) => (ctx1, fs2, some err)
          | (fs2, none) =>
            signContents ctx1 fs2 outFile signerS signerS.EstimateSignatureLength) ∧
      0 ≤ ctx1.Write.OffsetSigContents ∧
      0 ≤ ctx1.Write.FileSize - (ctx1.Write.OffsetSigContents + ((s.length : Int) + 2)) ∧
      ctx1.Write.OffsetSigContents + ((s.length : Int) + 2) ≤ ctx1.Write.FileSize ∧
      0 + ctx1.Write.OffsetSigContents
        ≤ ctx1.Write.OffsetSigContents + ((s.length : Int) + 2) ∧
      ctx1.Write.OffsetSigContents + ((s.length : Int) + 2)
        + (ctx1.Write.FileSize - (ctx1.Write.OffsetSigContents + ((s.length : Int) + 2)))
        = ctx1.Write.FileSize := by
  have hrec : 0 ≤ signerP.EstimateSignatureLength ∧
      Dict.Find d "Contents" = some (Object.hexLiteral
        (String.mk (List.replicate (2 * signerP.EstimateSignatureLength.toNat) '0'))) := by
    rcases hprep with h | h
    · obtain ⟨root0, hcat, hno, hN, hp⟩ := PrepareSignature_ok now ctx ctxP signerP d h
      have hag := (prepareFrom_spec _ ctxP _ d root0 hp hcat hno).2.2.2.2.2
      refine ⟨hN, ?_⟩
      rw [hag "Contents" (by decide)]
      simp [signatureDict, Dict.Find, NewHexLiteral, EncodeToString_zeros]
    · obtain ⟨root0, hcat, hno, hN, hp⟩ := PrepareTimestamp_ok ctx ctxP signerP d h
      have hag := (prepareFrom_spec _ ctxP _ d root0 hp hcat hno).2.2.2.2.2
      refine ⟨hN, ?_⟩
      rw [hag "Contents" (by decide)]
      simp [timestampDict, Dict.Find, NewHexLiteral, EncodeToString_zeros]
  obtain ⟨hN, hs⟩ := hrec
  have hlen : ((String.mk (List.replicate (2 * signerP.EstimateSignatureLength.toNat)
      '0')).length : Int) = 2 * signerP.EstimateSignatureLength := by
    simp only [String.length, List.length_replicate]
    omega
  have hfit' := hfit _ hs
  rw [hlen] at hfit'
  have hd : signByteRange ctx1.Write signerS.EstimateSignatureLength =
      [0, ctx1.Write.OffsetSigContents,
        ctx1.Write.OffsetSigContents + (2 * signerP.EstimateSignatureLength + 2),
        ctx1.Write.FileSize
          - (ctx1.Write.OffsetSigContents + (2 * signerP.EstimateSignatureLength + 2))] := by
    rw [signByteRange_eq, hsame]
    have e1 : wrap64 ctx1.Write.OffsetSigContents = ctx1.Write.OffsetSigContents := by
      unfold maxInt64 at hF; unfold wrap64; omega
    have e2 : wrap64 (ctx1.Write.OffsetSigContents + 2 + 2 * signerP.EstimateSignatureLength)
        = ctx1.Write.OffsetSigContents + (2 * signerP.EstimateSignatureLength + 2) := by
      unfold maxInt64 at hF; unfold wrap64; omega
    have e3 : wrap64 (ctx1.Write.FileSize
          - (ctx1.Write.OffsetSigContents + 2 + 2 * signerP.EstimateSignatureLength))
        = ctx1.Write.FileSize
          - (ctx1.Write.OffsetSigContents + (2 * signerP.EstimateSignatureLength + 2)) := by
      unfold maxInt64 at hF; unfold wrap64; omega
    rw [e1, e2, e3]
  refine ⟨_, hs, ?_, ?_, hc, ?_, ?_, ?_, ?_⟩
  · rw [hlen]; exact hd
  · rw [hlen]; simp only [Sign, hw, hd]
  · rw [hlen]; omega
  · rw [hlen]; omega
  · rw [hlen]; omega
  · rw [hlen]; omega

/-- Witness of `sign_excludes_slot`: the fixture record for the estimate 2 signed with a
signer of the same estimate; the descriptor is `(0, 11, 17, 1)`. -/
theorem sign_excludes_slot_witness :
    ∃ ctxP d, PrepareSignature "D:20200629" demoContext (constSigner 2 [])
        = (ctxP, Except.ok d) ∧
      ∃ s, Dict.Find d "Contents" = some (Object.hexLiteral s) ∧
        signByteRange (demoWriter (signTarget ctxP "out.pdf") smallFS).1.Write 2 =
          [0, 11, 11 + ((s.length : Int) + 2), 18 - (11 + ((s.length : Int) + 2))] ∧
        11 + ((s.length : Int) + 2) ≤ 18 := by
  refine ⟨_, _, rfl, ?_⟩
  obtain ⟨s, hs, hd, _, _, _, hle, _, _⟩ := sign_excludes_slot demoWriter demoPDFString
    "D:20200629" demoContext _ (constSigner 2 []) (constSigner 2 [171, 5]) _ smallFS "out.pdf"
    _ _ (Or.inl rfl) rfl rfl (by decide)
    (fun s hs => by
      have e : some (Object.hexLiteral "0000") = some (Object.hexLiteral s) := hs
      simp only [Option.some.injEq, Object.hexLiteral.injEq] at e
      subst e
      decide)
    (by decide)
  exact ⟨s, hs, hd, hle⟩

end Pdfcpu
